import Mathlib

/-!
# Verification of `hpc_job_submitter.py`

A shallow embedding of the Gaussian job submission helper
(`src/hpc_job_submitter.py`) together with proofs about its
configuration-resolution and submission pipeline.

Python strings are modelled as `List Char` (`PyStr`), with explicit
re-implementations of the string methods the source uses
(`strip`, `lower`, `upper`, `startswith`, `endswith`, `split`,
`partition`, `int(...)`, `str(...)` on integers).  Python integers
are `Int` (with floor division `Int.fdiv` and Python's nonnegative
`%` as `Int.emod`).  File content is modelled as its list of lines
(Python's `read_text().splitlines()` / `write_text("\n".join(...))`
round-trips exactly on newline-free lines).  Fallible Python code
(`raise ValueError`) is modelled with `Option` results.
-/

set_option autoImplicit false

namespace HPC

/-- A Python string, modelled as its list of characters. -/
abbrev PyStr := List Char

/-- The whitespace characters stripped by Python's `str.strip()`
(restricted to the ASCII range; all data handled by the program is ASCII). -/
def pyIsWs (c : Char) : Bool :=
  c.toNat == 32 || (9 ≤ c.toNat && c.toNat ≤ 13)

/-- `str.strip()`: drop whitespace from both ends. -/
def pyStrip (s : PyStr) : PyStr :=
  ((s.dropWhile pyIsWs).reverse.dropWhile pyIsWs).reverse

/-- ASCII lower-casing of one character (Python `str.lower` on ASCII data). -/
def pyCharLower (c : Char) : Char :=
  if 65 ≤ c.toNat ∧ c.toNat ≤ 90 then Char.ofNat (c.toNat + 32) else c

/-- ASCII upper-casing of one character (Python `str.upper` on ASCII data). -/
def pyCharUpper (c : Char) : Char :=
  if 97 ≤ c.toNat ∧ c.toNat ≤ 122 then Char.ofNat (c.toNat - 32) else c

/-- `str.lower()`. -/
def pyLower (s : PyStr) : PyStr := s.map pyCharLower

/-- `str.upper()`. -/
def pyUpper (s : PyStr) : PyStr := s.map pyCharUpper

/-- `s.startswith(pre)`. -/
def pyStartswith (pre s : PyStr) : Bool := pre.isPrefixOf s

/-- `s.endswith(suf)`. -/
def pyEndswith (suf s : PyStr) : Bool := suf.isSuffixOf s

/-- `s.split(sep)` for a one-character separator: always a nonempty list,
`"".split(sep) == [""]`. -/
def pySplit (sep : Char) : PyStr → List PyStr
  | [] => [[]]
  | c :: rest =>
    if c = sep then [] :: pySplit sep rest
    else
      match pySplit sep rest with
      | g :: gs => (c :: g) :: gs
      | [] => [[c]]

/-- `s.partition(sep)` for one-character separators, reduced to the pair the
CLI parser uses: the part before the first separator, and (if the separator
occurs) the part after it. -/
def pyPartition (sep : Char) : PyStr → PyStr × Option PyStr
  | [] => ([], none)
  | c :: rest =>
    if c = sep then ([], some rest)
    else
      let (pre, post) := pyPartition sep rest
      (c :: pre, post)

/-- `s[:-n]`: drop the last `n` characters. -/
def pyDropRight (n : Nat) (s : PyStr) : PyStr := s.take (s.length - n)

/-- `list.insert(i, x)` for a nonnegative index: Python clamps an index past
the end to an append, which `take`/`drop` give for free. -/
def pyInsert {α : Type} (i : Nat) (x : α) (l : List α) : List α :=
  l.take i ++ x :: l.drop i

/-- Decimal digit character for `n < 10` (used to render Python `str(int)`). -/
def digitChar : Nat → Char
  | 0 => '0' | 1 => '1' | 2 => '2' | 3 => '3' | 4 => '4'
  | 5 => '5' | 6 => '6' | 7 => '7' | 8 => '8' | _ => '9'

/-- Numeric value of a decimal digit character. -/
def digitVal (c : Char) : Nat := c.toNat - 48

/-- Is `c` an ASCII decimal digit? -/
def isDigitCh (c : Char) : Bool := 48 ≤ c.toNat && c.toNat ≤ 57

/-- Fuel-driven decimal rendering of a natural number (most significant digit
first); structural recursion on the fuel keeps it kernel-reducible. -/
def natDigitsAux : Nat → Nat → List Char → List Char
  | 0, _, acc => acc
  | fuel + 1, n, acc =>
    if n < 10 then digitChar n :: acc
    else natDigitsAux fuel (n / 10) (digitChar (n % 10) :: acc)

/-- Decimal rendering of a natural number. -/
def natDigits (n : Nat) : List Char := natDigitsAux (n + 1) n []

/-- Python `str(i)` for an integer. -/
def strInt (i : Int) : PyStr :=
  if i < 0 then '-' :: natDigits i.natAbs else natDigits i.toNat

/-- Value of a digit string (fold used by `pyInt?`). -/
def digitsValue (s : PyStr) : Nat :=
  s.foldl (fun a c => a * 10 + digitVal c) 0

/-- The digits-with-underscores body of a Python integer literal: nonempty,
every `_`-separated group nonempty and all digits. -/
def natPart (s : PyStr) : Option Nat :=
  if s.isEmpty then none
  else if (pySplit '_' s).all (fun g => !g.isEmpty && g.all isDigitCh) then
    some (digitsValue (s.filter (fun c => c ≠ '_')))
  else none

/-- Python `int(s)` for base-10 string input: strip whitespace, optional
sign, digits (with underscore group separators).  `none` models the
`ValueError` raised on malformed input. -/
def pyInt? (s : PyStr) : Option Int :=
  match pyStrip s with
  | [] => none
  | c :: rest =>
    if c = '+' then (natPart rest).map (fun n => (n : Int))
    else if c = '-' then (natPart rest).map (fun n => -(n : Int))
    else (natPart (c :: rest)).map (fun n => (n : Int))

/-! ## UnitParser -/

namespace UnitParser

/-- `UnitParser.parse_to_mb(value, default)`.  The outer `Option` models the
`ValueError` raised on malformed input (`none` = exception); the inner
`Option Int` is the Python `Optional[int]` return value. -/
def parse_to_mb (value : Option PyStr) (default : Option Int) :
    Option (Option Int) :=
  match value with
  | none => some default
  | some v =>
    let stripped := pyStrip v
    if stripped.isEmpty then some default
    else
      let upper := pyUpper stripped
      if pyEndswith ("MB".data) upper then
        match pyInt? (pyDropRight 2 upper) with
        | some n => some (some (n * 1))
        | none => none
      else if pyEndswith ("GB".data) upper then
        match pyInt? (pyDropRight 2 upper) with
        | some n => some (some (n * 1000))
        | none => none
      else
        match pyInt? upper with
        | some n => some (some n)
        | none => none

/-- `UnitParser.format_mb(value)`: multiples of `1000` render as gigabytes,
everything else as a megabyte count. -/
def format_mb (value : Int) : PyStr :=
  if Int.emod value 1000 = 0 then strInt (Int.fdiv value 1000) ++ "GB".data
  else strInt value ++ "MB".data

end UnitParser

/-! ## SubmitSettings -/

/-- The `SubmitSettings` dataclass, with its field defaults. -/
structure SubmitSettings where
  queue : PyStr := "pqph".data
  cores : Int := 12
  memory_mb : Int := 47988
  walltime : PyStr := "119:59:00".data
  gaussian_version : Option PyStr := none
  quiet : Bool := true
  force_priority : Bool := false
  correction_enabled : Bool := true
  maxdisk_mb : Option Int := none
  preset_loaded : Option Int := none
  dry_run : Bool := false
  show_summary : Bool := false
  whitestripes : PyStr := []
  deriving DecidableEq, Repr

/-! ## Preset -/

/-- The `Preset` dataclass. -/
structure Preset where
  queue : PyStr
  cores : Int
  memory_mb : Int
  walltime : PyStr
  gaussian_version : Option PyStr
  maxdisk_mb : Option Int
  deriving DecidableEq, Repr

/-- `Preset.from_line`: split on `;`, strip every field, require exactly six
fields; `none` models the `ValueError` raised on a malformed line (wrong
field count, bad `int(cores)`, or a size field that fails to parse). -/
def Preset.from_line (line : PyStr) : Option Preset :=
  let parts := (pySplit ';' line).map pyStrip
  match parts with
  | [queue, cores, memory, walltime, version, maxdisk] =>
    match pyInt? cores with
    | none => none
    | some c =>
      match UnitParser.parse_to_mb (some memory) none with
      | none => none
      | some memOpt =>
        match UnitParser.parse_to_mb (some maxdisk) none with
        | none => none
        | some maxOpt =>
          some { queue := queue
                 cores := c
                 memory_mb := memOpt.getD 0
                 walltime := walltime
                 gaussian_version := if version.isEmpty then none else some version
                 maxdisk_mb := maxOpt }
  | _ => none

/-- `SubmitSettings.update_from_preset`: Python's `x or y` keeps the prior
value for a falsy (`""` / `0`) preset field on the four mandatory fields,
while `gaussian_version` / `maxdisk_mb` are substituted unconditionally;
`preset_loaded` records the index and `whitestripes` is re-rendered from the
now-effective fields. -/
def SubmitSettings.update_from_preset (self : SubmitSettings)
    (preset_number : Int) (preset : Preset) : SubmitSettings :=
  let updated : SubmitSettings :=
    { self with
      queue := if preset.queue.isEmpty then self.queue else preset.queue
      cores := if preset.cores = 0 then self.cores else preset.cores
      memory_mb := if preset.memory_mb = 0 then self.memory_mb else preset.memory_mb
      walltime := if preset.walltime.isEmpty then self.walltime else preset.walltime
      gaussian_version := preset.gaussian_version
      maxdisk_mb := preset.maxdisk_mb
      preset_loaded := some preset_number }
  let formatted_maxdisk :=
    match updated.maxdisk_mb with
    | some d => UnitParser.format_mb d
    | none => []
  let whitestripes :=
    pyStrip (("Charged preset : ".data) ++ updated.queue ++ (" ".data) ++
      strInt updated.cores ++ (" ".data) ++
      UnitParser.format_mb updated.memory_mb ++ (" ".data) ++
      updated.walltime ++ (" ".data) ++
      (updated.gaussian_version.getD []) ++ (" ".data) ++ formatted_maxdisk)
  { updated with whitestripes := whitestripes }

/-! ## PresetManager -/

/-- The body of `PresetManager.iter_presets`: `sequence_index` starts at 1
and advances only when `Preset.from_line` succeeds; blank lines, `##`
comments and malformed lines are skipped. -/
def iterPresetsAux (sequence_index : Nat) : List PyStr → List (Nat × Preset)
  | [] => []
  | raw_line :: rest =>
    let line := pyStrip raw_line
    if line.isEmpty || pyStartswith ("##".data) line then
      iterPresetsAux sequence_index rest
    else
      match Preset.from_line line with
      | some p => (sequence_index, p) :: iterPresetsAux (sequence_index + 1) rest
      | none => iterPresetsAux sequence_index rest

/-- `PresetManager.iter_presets`, with the preset file given as its list of
lines. -/
def iter_presets (fileLines : List PyStr) : List (Nat × Preset) :=
  iterPresetsAux 1 fileLines

/-- One line of the `PresetManager.show_presets` listing. -/
def showPresetLine (entry : Nat × Preset) : PyStr :=
  let (idx, preset) := entry
  let maxdisk :=
    match preset.maxdisk_mb with
    | some d => UnitParser.format_mb d
    | none => []
  strInt idx ++ (" - cue: ".data) ++ preset.queue ++ (" cores:".data) ++
    strInt preset.cores ++ (" memory: ".data) ++
    UnitParser.format_mb preset.memory_mb ++ (" walltime: ".data) ++
    preset.walltime ++ (" gaussian version: ".data) ++
    (preset.gaussian_version.getD []) ++ (" max disk: ".data) ++ maxdisk

/-- The stdout produced by `PresetManager.show_presets`. -/
def show_presets (fileLines : List PyStr) : List PyStr :=
  (iter_presets fileLines).map showPresetLine

/-- `PresetManager.get_preset`: materialise the list and index it;
`none` models the `ValueError("Preset N not found")` raised when the
index is outside `[1, count]`. -/
def get_preset (fileLines : List PyStr) (preset_number : Int) : Option Preset :=
  let presets := iter_presets fileLines
  if preset_number < 1 ∨ preset_number > presets.length then none
  else (presets.get? (preset_number - 1).toNat).map (·.snd)

/-! ## GaussianInputCorrector -/

/-- The keyword match used by the directive editors: case-insensitive
prefix test on the stripped line (`line.strip().lower().startswith(keyword.lower())`). -/
def matchesKw (keyword line : PyStr) : Bool :=
  pyStartswith (pyLower keyword) (pyLower (pyStrip line))

/-- Index of the first line satisfying `p` (the `for idx, line in enumerate`
search loops of `update_directive` / `replace_line`). -/
def findLineIdx {α : Type} (p : α → Bool) : List α → Option Nat
  | [] => none
  | l :: ls => if p l then some 0 else (findLineIdx p ls).map (· + 1)

/-- `update_directive(keyword, replacement, default_index)` from
`GaussianInputCorrector.correct`: replace the first matching line in place,
else insert at the fixed default index. -/
def update_directive (keyword replacement : PyStr) (default_index : Nat)
    (lines : List PyStr) : List PyStr :=
  match findLineIdx (matchesKw keyword) lines with
  | some idx => lines.set idx replacement
  | none => pyInsert default_index replacement lines

/-- The maxdisk `for`/`else` loop of `GaussianInputCorrector.correct` (and
`replace_line` with no `insert_index`): replace the first matching line in
place, else append. -/
def append_directive (keyword replacement : PyStr) (lines : List PyStr) :
    List PyStr :=
  match findLineIdx (matchesKw keyword) lines with
  | some idx => lines.set idx replacement
  | none => lines ++ [replacement]

/-- The `%mem` directive value: `gm = (settings.memory_mb * 15) // 20`. -/
def gmValue (memory_mb : Int) : Int := Int.fdiv (memory_mb * 15) 20

/-- The line-level body of `GaussianInputCorrector.correct` (the file's
content as its list of lines; `path.stem` passed as `stem`). -/
def correctLines (stem : PyStr) (settings : SubmitSettings)
    (lines : List PyStr) : List PyStr :=
  let gm := gmValue settings.memory_mb
  let l1 := update_directive ("%mem".data)
    (("%mem=".data) ++ strInt gm ++ ("MB".data)) 0 lines
  let l2 := update_directive ("%nprocshared".data)
    (("%nprocshared=".data) ++ strInt settings.cores) 1 l1
  let l3 := update_directive ("%chk".data)
    (("%chk=".data) ++ stem ++ (".chk".data)) 2 l2
  match settings.maxdisk_mb with
  | some d =>
    append_directive ("maxdisk".data)
      (("maxdisk=".data) ++ strInt d ++ ("MB".data)) l3
  | none => l3

/-- `GaussianInputCorrector.correct`, with the target file abstracted to
its existence flag and content lines: disabled correction or a missing file
short-circuits to a no-op. -/
def correct (stem : PyStr) (settings : SubmitSettings) (fileExists : Bool)
    (lines : List PyStr) : List PyStr :=
  if !settings.correction_enabled then lines
  else if !fileExists then lines
  else correctLines stem settings lines

/-! ## PBSScriptManager -/

/-- `replace_line(predicate, replacement, insert_index)` from
`PBSScriptManager.update`: replace the first line satisfying the predicate,
else insert at `insert_index` when given, else append. -/
def replace_line (p : PyStr → Bool) (replacement : PyStr)
    (insert_index : Option Nat) (content : List PyStr) : List PyStr :=
  match findLineIdx p content with
  | some idx => content.set idx replacement
  | none =>
    match insert_index with
    | some i => pyInsert i replacement content
    | none => content ++ [replacement]

/-- The body of `PBSScriptManager.update` on the script's content lines. -/
def updateScript (settings : SubmitSettings) (content : List PyStr) :
    List PyStr :=
  let resources :=
    match settings.maxdisk_mb with
    | some d =>
      ("#PBS -lselect=1:ncpus=".data) ++ strInt settings.cores ++
        (":mem=".data) ++ strInt settings.memory_mb ++
        ("MB:tmpspace=".data) ++ strInt d ++ ("MB".data)
    | none =>
      ("#PBS -lselect=1:ncpus=".data) ++ strInt settings.cores ++
        (":mem=".data) ++ strInt settings.memory_mb ++ ("MB".data)
  let c1 := replace_line
    (fun line => pyStartswith ("#PBS -lselect=1:ncpus=".data) (pyStrip line))
    resources none content
  let c2 := replace_line
    (fun line => pyStartswith ("#PBS -l walltime=".data) (pyStrip line))
    (("#PBS -l walltime=".data) ++ settings.walltime) none c1
  let c3 :=
    if pyUpper settings.queue ≠ "PUBLIC".data then
      replace_line
        (fun line => pyStartswith ("#PBS -q ".data) (pyStrip line))
        (("#PBS -q ".data) ++ settings.queue) (some 13) c2
    else
      c2.filter (fun line => !pyStartswith ("#PBS -q ".data) (pyStrip line))
  match settings.gaussian_version with
  | some v =>
    if v.isEmpty then c3
    else
      replace_line
        (fun line => pyStartswith ("module load gaussian/".data) (pyStrip line))
        (("module load gaussian/g09-".data) ++ v) none c3
  | none => c3

/-! ## JobLogger -/

/-- `str.rstrip()`. -/
def pyRstrip (s : PyStr) : PyStr := (s.reverse.dropWhile pyIsWs).reverse

/-- Python's substring test `sub in s`. -/
def pyContains (sub : PyStr) : PyStr → Bool
  | [] => sub.isEmpty
  | c :: rest => pyStartswith sub (c :: rest) || pyContains sub rest

/-- The stdout of `JobLogger.show(selector)`, with the terse log file given
as its list of lines: `all` dumps the file, anything else prints the lines
containing the selector as a substring. -/
def loggerShow (logLines : List PyStr) (selector : PyStr) : List PyStr :=
  let sel := pyStrip selector
  if pyLower sel = "all".data then [List.intercalate ['\n'] logLines]
  else
    [List.intercalate ['\n']
      ((logLines.filter (fun line => pyContains sel line)).map pyRstrip)]

/-! ## GaussianJobCLI -/

/-- The environment `GaussianJobCLI.parse` reads: the preset file and the
terse log file, each as its list of lines. -/
structure CLIEnv where
  presetLines : List PyStr
  logLines : List PyStr
  deriving DecidableEq, Repr

/-- Result of `GaussianJobCLI._apply_preset` (and of any `sys.exit` /
uncaught `ValueError` it triggers: `exit` carries the exit code and the
lines printed to stdout / stderr on the way out). -/
inductive PresetCLIOutcome where
  | ok (settings : SubmitSettings)
  | exit (code : Int) (stdout : List PyStr) (stderr : List PyStr)
  deriving DecidableEq, Repr

/-- `GaussianJobCLI._apply_preset`: `show` / `set` short-circuit and exit 0;
a non-numeric identifier prints a diagnostic plus the preset listing and
exits 1; a numeric index is looked up, and an out-of-range index raises
`ValueError("Preset N not found")`, which `entry_point` catches, printing
the one-line message to stderr and exiting 1 (no listing). -/
def apply_preset (presetLines : List PyStr) (value : PyStr)
    (settings : SubmitSettings) : PresetCLIOutcome :=
  let lowered := pyLower value
  if lowered = "show".data then .exit 0 (show_presets presetLines) []
  else if lowered = "set".data then .exit 0 [] []
  else
    match pyInt? value with
    | none =>
      .exit 1 (show_presets presetLines)
        [("Invalid preset identifier: ".data) ++ value]
    | some preset_number =>
      match get_preset presetLines preset_number with
      | none =>
        .exit 1 []
          [("Preset ".data) ++ strInt preset_number ++ (" not found".data)]
      | some preset => .ok (settings.update_from_preset preset_number preset)

/-- Result of `GaussianJobCLI.parse`: either the collected file arguments
with the final settings, or an exit (code plus stdout / stderr lines). -/
inductive ParseResult where
  | ok (files : List PyStr) (settings : SubmitSettings)
  | exit (code : Int) (stdout : List PyStr) (stderr : List PyStr)
  deriving DecidableEq, Repr

/-- Stand-in for the historical usage text printed by `print_usage`
(its content is outside the spec's scope). -/
def print_usage_output : List PyStr := [("<usage text>".data)]

/-- Stand-in for the message of the `ValueError` raised by
`UnitParser.parse_to_mb` on malformed input, as printed by `entry_point`. -/
def sizeErrorMsg (v : PyStr) : PyStr :=
  ("Could not parse size specification: ".data) ++ v

/-- Stand-in for the message of the `ValueError` raised by `int(...)`, as
printed by `entry_point`. -/
def intErrorMsg (v : PyStr) : PyStr :=
  ("invalid literal for int() with base 10: ".data) ++ v

/-- `take_value(option, inline)`: an inline `--name=value` / `-qvalue`
value is used if nonempty, otherwise the next token is consumed; `none`
models the missing-argument failure. -/
def take_value (inline : Option PyStr) (rest : List PyStr) :
    Option (PyStr × List PyStr) :=
  match inline with
  | some v => if v.isEmpty then none else some (v, rest)
  | none =>
    match rest with
    | [] => none
    | v :: rest2 => some (v, rest2)

/-- Missing-argument failure for `take_value` (`fail` prints to stderr and
exits 1). -/
def missingArg (option : PyStr) : ParseResult :=
  .exit 1 [] [("Missing argument for option ".data) ++ option]

/-- Run `take_value` and continue with the value, or fail. -/
def withValue (option : PyStr) (inline : Option PyStr) (rest : List PyStr)
    (k : PyStr → List PyStr → ParseResult) : ParseResult :=
  match take_value inline rest with
  | none => missingArg option
  | some (v, rest2) => k v rest2

/-- The `while i < argc` loop of `GaussianJobCLI.parse`, as fuel-driven
recursion over the remaining tokens (every iteration consumes at least one
token, so `argv.length + 1` fuel always suffices). -/
def parseLoop (env : CLIEnv) :
    Nat → List PyStr → SubmitSettings → List PyStr → ParseResult
  | 0, _, settings, files => .ok files settings
  | _ + 1, [], settings, files => .ok files settings
  | fuel + 1, arg :: rest, settings, files =>
    if arg = "--".data then .ok (files ++ rest) settings
    else if !pyStartswith ("-".data) arg || arg = "-".data then
      parseLoop env fuel rest settings (files ++ [arg])
    else if pyStartswith ("--".data) arg then
      let (name, inline) := pyPartition '=' arg
      if name = "--help".data then .exit 0 print_usage_output []
      else if name = "--quiet".data then
        parseLoop env fuel rest { settings with quiet := true } files
      else if name = "--prompt".data ∨ name = "--interactive".data then
        parseLoop env fuel rest
          { settings with quiet := false, show_summary := true } files
      else if name = "--dry-run".data then
        parseLoop env fuel rest
          { settings with dry_run := true, show_summary := true } files
      else if name = "--show-summary".data then
        parseLoop env fuel rest { settings with show_summary := true } files
      else if name = "--no-correction".data then
        parseLoop env fuel rest
          { settings with correction_enabled := false } files
      else if name = "--force".data then
        parseLoop env fuel rest { settings with force_priority := true } files
      else if name = "--logs".data then
        withValue name inline rest fun selector _ =>
          .exit 0 (loggerShow env.logLines selector) []
      else if name = "--queue".data ∨ name = "--cue".data then
        withValue name inline rest fun v rest2 =>
          parseLoop env fuel rest2
            { settings with queue := if v.isEmpty then settings.queue else v }
            files
      else if name = "--cores".data ∨ name = "--nproc".data then
        withValue name inline rest fun v rest2 =>
          match pyInt? v with
          | none => .exit 1 [] [intErrorMsg v]
          | some n =>
            parseLoop env fuel rest2 { settings with cores := n } files
      else if name = "--memory".data ∨ name = "--mem".data then
        withValue name inline rest fun v rest2 =>
          match UnitParser.parse_to_mb (some v) (some settings.memory_mb) with
          | none => .exit 1 [] [sizeErrorMsg v]
          | some value =>
            let m :=
              match value with
              | some x => if x = 0 then settings.memory_mb else x
              | none => settings.memory_mb
            parseLoop env fuel rest2 { settings with memory_mb := m } files
      else if name = "--walltime".data then
        withValue name inline rest fun v rest2 =>
          parseLoop env fuel rest2
            { settings with
              walltime := if v.isEmpty then settings.walltime else v } files
      else if name = "--gaussian-version".data ∨ name = "--gauss".data then
        withValue name inline rest fun v rest2 =>
          parseLoop env fuel rest2
            { settings with
              gaussian_version := if v.isEmpty then none else some v } files
      else if name = "--maxdisk".data then
        withValue name inline rest fun v rest2 =>
          match UnitParser.parse_to_mb (some v) settings.maxdisk_mb with
          | none => .exit 1 [] [sizeErrorMsg v]
          | some maxdisk =>
            parseLoop env fuel rest2
              { settings with maxdisk_mb := maxdisk } files
      else if name = "--preset".data ∨ name = "--presets".data then
        withValue name inline rest fun v rest2 =>
          match apply_preset env.presetLines v settings with
          | .ok settings2 => parseLoop env fuel rest2 settings2 files
          | .exit code out err => .exit code out err
      else .exit 1 [] [("Unknown option ".data) ++ name]
    else
      match arg with
      | '-' :: optionC :: remainder =>
        let inline : Option PyStr :=
          if remainder.isEmpty then none else some remainder
        let short : PyStr := ['-', optionC]
        if optionC = 'h' then .exit 0 print_usage_output []
        else if optionC = 's' then
          parseLoop env fuel rest { settings with quiet := true } files
        else if optionC = 'i' then
          parseLoop env fuel rest
            { settings with quiet := false, show_summary := true } files
        else if optionC = 'r' then
          parseLoop env fuel rest
            { settings with dry_run := true, show_summary := true } files
        else if optionC = 'n' then
          parseLoop env fuel rest
            { settings with correction_enabled := false } files
        else if optionC = 'f' then
          parseLoop env fuel rest
            { settings with force_priority := true } files
        else if optionC = 'l' then
          withValue short inline rest fun selector _ =>
            .exit 0 (loggerShow env.logLines selector) []
        else if optionC = 'q' then
          withValue short inline rest fun v rest2 =>
            parseLoop env fuel rest2
              { settings with
                queue := if v.isEmpty then settings.queue else v } files
        else if optionC = 'c' then
          withValue short inline rest fun v rest2 =>
            match pyInt? v with
            | none => .exit 1 [] [intErrorMsg v]
            | some n =>
              parseLoop env fuel rest2 { settings with cores := n } files
        else if optionC = 'm' then
          withValue short inline rest fun v rest2 =>
            match UnitParser.parse_to_mb (some v) (some settings.memory_mb) with
            | none => .exit 1 [] [sizeErrorMsg v]
            | some value =>
              let m :=
                match value with
                | some x => if x = 0 then settings.memory_mb else x
                | none => settings.memory_mb
              parseLoop env fuel rest2 { settings with memory_mb := m } files
        else if optionC = 'w' then
          withValue short inline rest fun v rest2 =>
            parseLoop env fuel rest2
              { settings with
                walltime := if v.isEmpty then settings.walltime else v } files
        else if optionC = 'g' then
          withValue short inline rest fun v rest2 =>
            parseLoop env fuel rest2
              { settings with
                gaussian_version := if v.isEmpty then none else some v } files
        else if optionC = 'd' then
          withValue short inline rest fun v rest2 =>
            match UnitParser.parse_to_mb (some v) settings.maxdisk_mb with
            | none => .exit 1 [] [sizeErrorMsg v]
            | some maxdisk =>
              parseLoop env fuel rest2
                { settings with maxdisk_mb := maxdisk } files
        else if optionC = 'p' then
          withValue short inline rest fun v rest2 =>
            match apply_preset env.presetLines v settings with
            | .ok settings2 => parseLoop env fuel rest2 settings2 files
            | .exit code out err => .exit code out err
        else .exit 1 [] [("Unknown option -".data) ++ [optionC]]
      | _ => .exit 1 [] []

/-- `GaussianJobCLI.parse`. -/
def parse (env : CLIEnv) (argv : List PyStr)
    (initial_settings : SubmitSettings) : ParseResult :=
  parseLoop env (argv.length + 1) argv initial_settings []

/-- The settings a successful parse produced, if any. -/
def settingsOf : ParseResult → Option SubmitSettings
  | .ok _ settings => some settings
  | .exit _ _ _ => none

/-! ## GaussianJobManager -/

/-- `SubmissionResult` (scheduler outcome). -/
structure SubmissionResult where
  succeeded : Bool
  output : PyStr
  deriving DecidableEq, Repr

/-- One input file of a run, with the environment's responses abstracted:
whether resolution + validation succeed, the interactive confirmation
answer, and the scheduler's result were it to be called. -/
structure JobFile where
  stem : PyStr
  valid : Bool
  answerYes : Bool
  sched : SubmissionResult
  deriving DecidableEq, Repr

/-- Observable effects of `GaussianJobManager.process_jobs`, in order. -/
inductive Event where
  | scriptUpdated
  | usagePrinted
  | corrected (stem : PyStr)
  | commandPrinted (command : List PyStr)
  | abortedPrinted
  | dryRunPrinted
  | schedulerCalled (command : List PyStr)
  | outputPrinted (output : PyStr)
  | failurePrinted
  | logAppended (stem : PyStr)
  | sentPrinted
  deriving DecidableEq, Repr

/-- `GaussianJobManager._build_command`. -/
def build_command (script_file : PyStr) (settings : SubmitSettings)
    (job_name input_stem : PyStr) : List PyStr :=
  ("qsub".data) ::
    (if settings.force_priority then [("-p".data), ("100".data)] else []) ++
    [("-N".data), job_name, ("-v".data), ("in=".data) ++ input_stem,
      script_file]

/-- The per-file body of the `process_jobs` loop (after validation): correct
the input file, print the quiet summary when requested, confirm (the
interactive preview prints the command; quiet mode auto-confirms), then
either stop on the dry-run short-circuit or call the scheduler and log. -/
def processFile (script_file : PyStr) (settings : SubmitSettings)
    (f : JobFile) : List Event :=
  let job_name := f.stem.take 15
  let command := build_command script_file settings job_name f.stem
  let summaryEvents :=
    if settings.quiet && (settings.show_summary || settings.dry_run) then
      [Event.commandPrinted command]
    else []
  let previewEvents :=
    if settings.quiet then [] else [Event.commandPrinted command]
  let confirmed := settings.quiet || f.answerYes
  Event.corrected f.stem :: summaryEvents ++ previewEvents ++
    (if !confirmed then [Event.abortedPrinted]
     else if settings.dry_run then [Event.dryRunPrinted]
     else
       Event.schedulerCalled command ::
         (if !f.sched.output.isEmpty then [Event.outputPrinted f.sched.output]
          else []) ++
         (if !f.sched.succeeded then [Event.failurePrinted]
          else [Event.logAppended f.stem, Event.sentPrinted]))

/-- The file loop of `process_jobs`: a validation failure prints to stderr
and exits 1, stopping the remaining batch. -/
def processJobsAux (script_file : PyStr) (settings : SubmitSettings) :
    List JobFile → Int × List Event
  | [] => (0, [])
  | f :: rest =>
    if !f.valid then (1, [])
    else
      let evs := processFile script_file settings f
      let (code, evs2) := processJobsAux script_file settings rest
      (code, evs ++ evs2)

/-- `GaussianJobManager.process_jobs`: empty file list prints usage and
exits 0; otherwise the submission script is rewritten once, then each file
is processed in order.  Returns the process exit code and the event list. -/
def process_jobs (script_file : PyStr) (files : List JobFile)
    (settings : SubmitSettings) : Int × List Event :=
  if files.isEmpty then (0, [Event.usagePrinted])
  else
    let (code, evs) := processJobsAux script_file settings files
    (code, Event.scriptUpdated :: evs)

/-- The per-line decision of `iter_presets`: `none` for a blank line, a
`##` comment, or a line `Preset.from_line` rejects. -/
def presetOfLine (raw_line : PyStr) : Option Preset :=
  let line := pyStrip raw_line
  if line.isEmpty || pyStartswith ("##".data) line then none
  else Preset.from_line line

/-- After an upsert put `r` into the list: some line equals `r` and every
earlier line fails the predicate. -/
def ReplacedAt (p : PyStr → Bool) (r : PyStr) (l : List PyStr) : Prop :=
  ∃ pre suf, l = pre ++ r :: suf ∧ ∀ a ∈ pre, p a = false

/-! ## Auxiliary list lemmas -/

lemma getLastQ_append {α : Type} (l₁ : List α) {l₂ : List α} (h : l₂ ≠ []) :
    (l₁ ++ l₂).getLast? = l₂.getLast? := by
  induction l₁ with
  | nil => rfl
  | cons a l ih =>
    rw [List.cons_append, List.getLast?_cons, ih]
    cases l₂ with
    | nil => exact absurd rfl h
    | cons b t => simp [List.getLast?_cons]


lemma set_append_left {α : Type} (l₁ l₂ : List α) (i : Nat) (x : α)
    (h : i < l₁.length) : (l₁ ++ l₂).set i x = l₁.set i x ++ l₂ := by
  induction l₁ generalizing i with
  | nil => simp at h
  | cons a l ih =>
    cases i with
    | zero => rfl
    | succ j =>
      simp only [List.cons_append, List.set, List.append_eq]
      rw [ih j (by simpa using h)]

lemma set_append_right {α : Type} (l₁ l₂ : List α) (i : Nat) (x : α)
    (h : l₁.length ≤ i) : (l₁ ++ l₂).set i x = l₁ ++ l₂.set (i - l₁.length) x := by
  induction l₁ generalizing i with
  | nil => simp
  | cons a l ih =>
    cases i with
    | zero => simp at h
    | succ j =>
      simp only [List.cons_append, List.set, List.length_cons, List.append_eq]
      rw [ih j (by simpa using h)]
      simp [Nat.succ_sub_succ]

lemma set_append_cons {α : Type} (pre suf : List α) (b r : α) :
    (pre ++ b :: suf).set pre.length r = pre ++ r :: suf := by
  rw [set_append_right pre (b :: suf) pre.length r le_rfl]
  simp

lemma map_eq_self_of {α : Type} {f : α → α} {l : List α}
    (h : ∀ c ∈ l, f c = c) : l.map f = l := by
  induction l with
  | nil => rfl
  | cons a l ih =>
    simp only [List.map_cons, h a (List.mem_cons_self a l),
      ih (fun c hc => h c (List.mem_cons_of_mem a hc))]

/-! ## Character facts -/

lemma pyCharLower_of_not_upper {c : Char} (h : ¬(65 ≤ c.toNat ∧ c.toNat ≤ 90)) :
    pyCharLower c = c := by
  unfold pyCharLower
  rw [if_neg h]

lemma pyCharUpper_of_not_lower {c : Char} (h : ¬(97 ≤ c.toNat ∧ c.toNat ≤ 122)) :
    pyCharUpper c = c := by
  unfold pyCharUpper
  rw [if_neg h]

lemma isDigitCh_iff {c : Char} : isDigitCh c = true ↔ 48 ≤ c.toNat ∧ c.toNat ≤ 57 := by
  simp [isDigitCh]

lemma pyIsWs_false {c : Char} (h1 : c.toNat ≠ 32) (h2 : ¬c.toNat ≤ 13) :
    pyIsWs c = false := by
  simp [pyIsWs]
  omega

lemma pyIsWs_digit {c : Char} (h : isDigitCh c = true) : pyIsWs c = false := by
  rw [isDigitCh_iff] at h
  exact pyIsWs_false (by omega) (by omega)

lemma pyCharLower_digit {c : Char} (h : isDigitCh c = true) : pyCharLower c = c := by
  rw [isDigitCh_iff] at h
  exact pyCharLower_of_not_upper (by omega)

lemma pyCharUpper_digit {c : Char} (h : isDigitCh c = true) : pyCharUpper c = c := by
  rw [isDigitCh_iff] at h
  exact pyCharUpper_of_not_lower (by omega)

lemma char_ne_of_toNat_ne {c d : Char} (h : c.toNat ≠ d.toNat) : c ≠ d :=
  fun he => h (by rw [he])

/-! ## `pyStrip` and `pySplit` lemmas -/

lemma dropWhile_eq_self_of_head {α : Type} {p : α → Bool} {l : List α}
    (h : ∀ c, l.head? = some c → p c = false) : l.dropWhile p = l := by
  cases l with
  | nil => rfl
  | cons a t => simp [List.dropWhile_cons, h a rfl]

lemma pyStrip_eq_self {l : PyStr}
    (h1 : ∀ c, l.head? = some c → pyIsWs c = false)
    (h2 : ∀ c, l.getLast? = some c → pyIsWs c = false) : pyStrip l = l := by
  unfold pyStrip
  rw [dropWhile_eq_self_of_head h1]
  rw [dropWhile_eq_self_of_head (by rw [List.head?_reverse]; exact h2)]
  exact List.reverse_reverse l

lemma pySplit_of_not_mem {sep : Char} {l : PyStr} (h : sep ∉ l) :
    pySplit sep l = [l] := by
  induction l with
  | nil => rfl
  | cons a t ih =>
    have ha : a ≠ sep := fun he => h (he ▸ List.mem_cons_self a t)
    have ht : sep ∉ t := fun hm => h (List.mem_cons_of_mem a hm)
    simp only [pySplit, if_neg ha, ih ht]

/-! ## Decimal rendering: `natDigits` / `strInt` / `pyInt?` round trip -/

lemma digitChar_isDigit (m : Nat) : isDigitCh (digitChar m) = true := by
  rcases m with _|_|_|_|_|_|_|_|_|m <;> rfl

lemma digitVal_digitChar {m : Nat} (h : m < 10) : digitVal (digitChar m) = m := by
  interval_cases m <;> rfl

lemma natDigitsAux_append (fuel : Nat) :
    ∀ n acc, n < fuel → natDigitsAux fuel n acc = natDigits n ++ acc := by
  induction fuel using Nat.strong_induction_on with
  | _ fuel ih =>
    intro n acc h
    rcases fuel with _ | g
    · omega
    · by_cases h10 : n < 10
      · simp [natDigitsAux, natDigits, h10]
      · have hdiv : n / 10 < n := Nat.div_lt_self (by omega) (by omega)
        have hL : natDigitsAux (g + 1) n acc
            = natDigits (n / 10) ++ (digitChar (n % 10) :: acc) := by
          rw [natDigitsAux, if_neg h10]
          exact ih g (Nat.lt_succ_self g) (n / 10) _ (by omega)
        have hR : natDigits n = natDigits (n / 10) ++ [digitChar (n % 10)] := by
          rw [natDigits, natDigitsAux, if_neg h10]
          exact ih n h (n / 10) _ hdiv
        rw [hL, hR, List.append_assoc]
        rfl

lemma natDigits_lt10 {n : Nat} (h : n < 10) : natDigits n = [digitChar n] := by
  simp [natDigits, natDigitsAux, h]

lemma natDigits_ge10 {n : Nat} (h : 10 ≤ n) :
    natDigits n = natDigits (n / 10) ++ [digitChar (n % 10)] := by
  rw [natDigits, natDigitsAux, if_neg (by omega)]
  rw [natDigitsAux_append n (n / 10) _ (by
    have := Nat.div_lt_self (show 0 < n by omega) (show 1 < 10 by omega)
    omega)]

lemma natDigits_ne_nil (n : Nat) : natDigits n ≠ [] := by
  by_cases h : n < 10
  · rw [natDigits_lt10 h]; simp
  · rw [natDigits_ge10 (by omega)]; simp

lemma mem_natDigits_isDigit (n : Nat) : ∀ c ∈ natDigits n, isDigitCh c = true := by
  induction n using Nat.strong_induction_on with
  | _ n ih =>
    intro c hc
    by_cases h : n < 10
    · rw [natDigits_lt10 h] at hc
      simp only [List.mem_singleton] at hc
      rw [hc]; exact digitChar_isDigit n
    · rw [natDigits_ge10 (by omega)] at hc
      rcases List.mem_append.1 hc with h1 | h1
      · exact ih (n / 10) (Nat.div_lt_self (by omega) (by omega)) c h1
      · simp only [List.mem_singleton] at h1
        rw [h1]; exact digitChar_isDigit (n % 10)

lemma digitsValue_natDigits (n : Nat) : digitsValue (natDigits n) = n := by
  induction n using Nat.strong_induction_on with
  | _ n ih =>
    by_cases h : n < 10
    · rw [natDigits_lt10 h]
      simp [digitsValue, digitVal_digitChar h]
    · rw [natDigits_ge10 (by omega)]
      unfold digitsValue
      rw [List.foldl_append]
      have hrec := ih (n / 10) (Nat.div_lt_self (by omega) (by omega))
      unfold digitsValue at hrec
      rw [hrec]
      simp only [List.foldl_cons, List.foldl_nil,
        digitVal_digitChar (Nat.mod_lt n (show 0 < 10 by omega))]
      omega

lemma mem_of_getLastQ {α : Type} {l : List α} {a : α} (h : l.getLast? = some a) :
    a ∈ l := by
  induction l with
  | nil => simp [List.getLast?] at h
  | cons b t ih =>
    cases t with
    | nil =>
      simp [List.getLast?] at h
      simp [h]
    | cons c s =>
      rw [List.getLast?_cons_cons] at h
      exact List.mem_cons_of_mem b (ih h)

lemma pyStrip_eq_self_of_all {l : PyStr} (h : ∀ c ∈ l, pyIsWs c = false) :
    pyStrip l = l := by
  apply pyStrip_eq_self
  · intro c hc
    cases l with
    | nil => simp at hc
    | cons a t =>
      simp only [List.head?_cons, Option.some.injEq] at hc
      exact hc ▸ h a (List.mem_cons_self a t)
  · intro c hc
    exact h c (mem_of_getLastQ hc)

lemma mem_strInt (k : Int) : ∀ c ∈ strInt k, c = '-' ∨ isDigitCh c = true := by
  intro c hc
  unfold strInt at hc
  by_cases hk : k < 0
  · rw [if_pos hk] at hc
    rcases List.mem_cons.1 hc with rfl | hc
    · exact Or.inl rfl
    · exact Or.inr (mem_natDigits_isDigit _ c hc)
  · rw [if_neg hk] at hc
    exact Or.inr (mem_natDigits_isDigit _ c hc)

lemma pyIsWs_strInt (k : Int) : ∀ c ∈ strInt k, pyIsWs c = false := by
  intro c hc
  rcases mem_strInt k c hc with rfl | hd
  · decide
  · exact pyIsWs_digit hd

lemma strInt_cons (k : Int) : ∃ c rest, strInt k = c :: rest := by
  unfold strInt
  by_cases hk : k < 0
  · exact ⟨'-', natDigits k.natAbs, by rw [if_pos hk]⟩
  · rw [if_neg hk]
    cases hnd : natDigits k.toNat with
    | nil => exact absurd hnd (natDigits_ne_nil _)
    | cons c rest => exact ⟨c, rest, rfl⟩

lemma strInt_ne_nil (k : Int) : strInt k ≠ [] := by
  obtain ⟨c, rest, h⟩ := strInt_cons k
  rw [h]
  simp

lemma natDigits_getLast_digit (n : Nat) :
    ∀ c, (natDigits n).getLast? = some c → isDigitCh c = true := by
  intro c hc
  exact mem_natDigits_isDigit n c (mem_of_getLastQ hc)

lemma strInt_getLast_digit (k : Int) :
    ∀ c, (strInt k).getLast? = some c → isDigitCh c = true := by
  intro c hc
  unfold strInt at hc
  by_cases hk : k < 0
  · rw [if_pos hk,
      show ('-' :: natDigits k.natAbs) = [('-' : Char)] ++ natDigits k.natAbs from rfl,
      getLastQ_append _ (natDigits_ne_nil _)] at hc
    exact natDigits_getLast_digit _ c hc
  · rw [if_neg hk] at hc
    exact natDigits_getLast_digit _ c hc

lemma pyUpper_strInt (k : Int) : pyUpper (strInt k) = strInt k := by
  apply map_eq_self_of
  intro c hc
  rcases mem_strInt k c hc with rfl | hd
  · decide
  · exact pyCharUpper_digit hd

lemma pyLower_strInt (k : Int) : pyLower (strInt k) = strInt k := by
  apply map_eq_self_of
  intro c hc
  rcases mem_strInt k c hc with rfl | hd
  · decide
  · exact pyCharLower_digit hd

lemma natPart_natDigits (n : Nat) : natPart (natDigits n) = some n := by
  have hne : (natDigits n).isEmpty = false := by
    cases hnd : natDigits n with
    | nil => exact absurd hnd (natDigits_ne_nil n)
    | cons a t => rfl
  have hnu : ('_' : Char) ∉ natDigits n := fun hm =>
    absurd (mem_natDigits_isDigit n '_' hm) (by decide)
  unfold natPart
  rw [if_neg (by simp [hne]), pySplit_of_not_mem hnu]
  rw [if_pos (by
    simp only [List.all_cons, List.all_nil, Bool.and_true, hne,
      Bool.not_false, Bool.true_and]
    rw [List.all_eq_true]
    exact mem_natDigits_isDigit n)]
  have hfil : (natDigits n).filter (fun c => c ≠ '_') = natDigits n := by
    rw [List.filter_eq_self]
    intro a ha
    simp only [ne_eq, decide_eq_true_eq]
    exact fun he => hnu (he ▸ ha)
  rw [hfil, digitsValue_natDigits]

lemma pyInt?_of_strip_cons {s : PyStr} {c : Char} {rest : PyStr}
    (h : pyStrip s = c :: rest) :
    pyInt? s =
      if c = '+' then (natPart rest).map (fun n => (n : Int))
      else if c = '-' then (natPart rest).map (fun n => -(n : Int))
      else (natPart (c :: rest)).map (fun n => (n : Int)) := by
  unfold pyInt?
  rw [h]

lemma pyInt?_strInt (k : Int) : pyInt? (strInt k) = some k := by
  have hstrip : pyStrip (strInt k) = strInt k :=
    pyStrip_eq_self_of_all (pyIsWs_strInt k)
  by_cases hk : k < 0
  · have hform : strInt k = '-' :: natDigits k.natAbs := by
      unfold strInt; rw [if_pos hk]
    rw [pyInt?_of_strip_cons (by rw [hstrip, hform])]
    rw [if_neg (by decide), if_pos rfl, natPart_natDigits]
    exact congrArg some (show -((k.natAbs : Nat) : Int) = k by omega)
  · have hform : strInt k = natDigits k.toNat := by
      unfold strInt; rw [if_neg hk]
    cases hnd : natDigits k.toNat with
    | nil => exact absurd hnd (natDigits_ne_nil _)
    | cons c rest =>
      have hdig : isDigitCh c = true :=
        mem_natDigits_isDigit _ c (hnd ▸ List.mem_cons_self c rest)
      have hc48 := isDigitCh_iff.1 hdig
      have h43 : ('+' : Char).toNat = 43 := rfl
      have h45 : ('-' : Char).toNat = 45 := rfl
      rw [pyInt?_of_strip_cons (by rw [hstrip, hform, hnd])]
      rw [if_neg (char_ne_of_toNat_ne (by omega))]
      rw [if_neg (char_ne_of_toNat_ne (by omega))]
      rw [← hnd, natPart_natDigits]
      exact congrArg some (show ((k.toNat : Nat) : Int) = k by omega)

lemma take_length_append {α : Type} (l₁ l₂ : List α) :
    (l₁ ++ l₂).take l₁.length = l₁ := by
  induction l₁ with
  | nil => rfl
  | cons a l ih => simp [List.take, ih]

lemma endswith_two_getLast {x y : Char} {l : PyStr}
    (h : pyEndswith [x, y] l = true) : l.getLast? = some y := by
  unfold pyEndswith List.isSuffixOf at h
  cases hr : l.reverse with
  | nil => rw [hr] at h; simp [List.isPrefixOf] at h
  | cons a t =>
    rw [hr] at h
    simp only [List.reverse_cons, List.reverse_nil, List.nil_append,
      List.isPrefixOf, Bool.and_eq_true, beq_iff_eq] at h
    rw [← List.head?_reverse, hr]
    exact congrArg some h.1.symm

lemma endswith_append_two {x y u v : Char} (a : PyStr) :
    pyEndswith [x, y] (a ++ [u, v]) = ((y == v) && (x == u)) := by
  unfold pyEndswith List.isSuffixOf
  rw [List.reverse_append, show ([u, v] : PyStr).reverse = [v, u] from rfl,
    show ([x, y] : PyStr).reverse = [y, x] from rfl]
  show List.isPrefixOf [y, x] (v :: u :: a.reverse) = _
  simp [List.isPrefixOf, Bool.and_true]

namespace UnitParser

/-- Expand `parse_to_mb` on a present value. -/
lemma parse_to_mb_some (v : PyStr) (d : Option Int) :
    parse_to_mb (some v) d =
      (let stripped := pyStrip v
       if stripped.isEmpty then some d
       else
         let upper := pyUpper stripped
         if pyEndswith ("MB".data) upper then
           match pyInt? (pyDropRight 2 upper) with
           | some n => some (some (n * 1))
           | none => none
         else if pyEndswith ("GB".data) upper then
           match pyInt? (pyDropRight 2 upper) with
           | some n => some (some (n * 1000))
           | none => none
         else
           match pyInt? upper with
           | some n => some (some n)
           | none => none) := rfl

/-- Parsing the bare decimal rendering of `k` yields `k` (no suffix). -/
lemma parse_to_mb_strInt (k : Int) (d : Option Int) :
    parse_to_mb (some (strInt k)) d = some (some k) := by
  rw [parse_to_mb_some]
  have hstrip : pyStrip (strInt k) = strInt k :=
    pyStrip_eq_self_of_all (pyIsWs_strInt k)
  have hne : (strInt k).isEmpty = false := by
    obtain ⟨c, rest, hc⟩ := strInt_cons k
    rw [hc]; rfl
  have hupper := pyUpper_strInt k
  have hMB : pyEndswith ("MB".data) (strInt k) = false := by
    cases hE : pyEndswith ("MB".data) (strInt k)
    · rfl
    · exact absurd
        (strInt_getLast_digit k 'B'
          (endswith_two_getLast (x := 'M') (y := 'B') hE))
        (by decide)
  have hGB : pyEndswith ("GB".data) (strInt k) = false := by
    cases hE : pyEndswith ("GB".data) (strInt k)
    · rfl
    · exact absurd
        (strInt_getLast_digit k 'B'
          (endswith_two_getLast (x := 'G') (y := 'B') hE))
        (by decide)
  simp only [hstrip, hne, Bool.false_eq_true, if_false, hupper, hMB, hGB,
    pyInt?_strInt]

/-- Parsing the decimal rendering of `k` with a `GB` suffix yields
`k * 1000`. -/
lemma parse_to_mb_strInt_GB (k : Int) (d : Option Int) :
    parse_to_mb (some (strInt k ++ "GB".data)) d = some (some (k * 1000)) := by
  rw [parse_to_mb_some]
  have hstrip : pyStrip (strInt k ++ "GB".data) = strInt k ++ "GB".data := by
    apply pyStrip_eq_self_of_all
    intro c hc
    rcases List.mem_append.1 hc with hc | hc
    · exact pyIsWs_strInt k c hc
    · rcases List.mem_cons.1 hc with rfl | hc
      · decide
      · rcases List.mem_cons.1 hc with rfl | hc
        · decide
        · simp at hc
  have hne : (strInt k ++ "GB".data).isEmpty = false := by
    obtain ⟨c, rest, hc⟩ := strInt_cons k
    rw [hc]; rfl
  have hupper : pyUpper (strInt k ++ "GB".data) = strInt k ++ "GB".data := by
    have hmap : pyUpper (strInt k ++ "GB".data)
        = pyUpper (strInt k) ++ pyUpper ("GB".data) := List.map_append _ _ _
    rw [hmap, pyUpper_strInt]
    rfl
  have hMB : pyEndswith ("MB".data) (strInt k ++ "GB".data) = false := by
    rw [show ("GB".data : PyStr) = ['G', 'B'] from rfl,
      show ("MB".data : PyStr) = ['M', 'B'] from rfl, endswith_append_two]
    decide
  have hGB : pyEndswith ("GB".data) (strInt k ++ "GB".data) = true := by
    rw [show ("GB".data : PyStr) = ['G', 'B'] from rfl, endswith_append_two]
    decide
  have hdrop : pyDropRight 2 (strInt k ++ "GB".data) = strInt k := by
    unfold pyDropRight
    rw [List.length_append,
      show (("GB".data : PyStr)).length = 2 from rfl,
      Nat.add_sub_cancel, take_length_append]
  simp only [hstrip, hne, Bool.false_eq_true, if_false, hupper, hMB, hGB,
    if_true, hdrop, pyInt?_strInt]

/-- Formatting a clean multiple of 1000 produces the `GB` rendering. -/
lemma format_mb_mul1000 (k : Int) :
    format_mb (k * 1000) = strInt k ++ "GB".data := by
  unfold format_mb
  have h0 : Int.emod (k * 1000) 1000 = 0 := Int.mul_emod_left k 1000
  have h1 : Int.fdiv (k * 1000) 1000 = k := Int.mul_fdiv_cancel k (by omega)
  rw [if_pos h0, h1]

end UnitParser

/-! ## Directive editor: first-match machinery -/

lemma findLineIdx_prepend {α : Type} {p : α → Bool} {pre : List α}
    (hpre : ∀ a ∈ pre, p a = false) {b : α} (hb : p b = true) (suf : List α) :
    findLineIdx p (pre ++ b :: suf) = some pre.length := by
  induction pre with
  | nil => simp [findLineIdx, hb]
  | cons a t ih =>
    have ha : p a = false := hpre a (List.mem_cons_self a t)
    simp only [List.cons_append, findLineIdx, ha, Bool.false_eq_true, if_false,
      List.append_eq]
    rw [ih (fun x hx => hpre x (List.mem_cons_of_mem a hx))]
    rfl

lemma findLineIdx_some {α : Type} {p : α → Bool} {l : List α} {i : Nat}
    (h : findLineIdx p l = some i) :
    ∃ pre b suf, l = pre ++ b :: suf ∧ pre.length = i ∧
      (∀ a ∈ pre, p a = false) ∧ p b = true := by
  induction l generalizing i with
  | nil => simp [findLineIdx] at h
  | cons a t ih =>
    by_cases ha : p a = true
    · simp only [findLineIdx, ha, if_true, Option.some.injEq] at h
      exact ⟨[], a, t, rfl, h, by simp, ha⟩
    · have ha' : p a = false := by
        cases hpa : p a
        · rfl
        · exact absurd hpa ha
      simp only [findLineIdx, ha', Bool.false_eq_true, if_false,
        Option.map_eq_some'] at h
      obtain ⟨j, hj, hij⟩ := h
      obtain ⟨pre, b, suf, hdec, hlen, hpre, hb⟩ := ih hj
      exact ⟨a :: pre, b, suf, by rw [hdec]; rfl,
        by simp [hlen, ← hij], by
          intro x hx
          rcases List.mem_cons.1 hx with rfl | hx
          · exact ha'
          · exact hpre x hx, hb⟩

lemma findLineIdx_none {α : Type} {p : α → Bool} {l : List α}
    (h : findLineIdx p l = none) : ∀ a ∈ l, p a = false := by
  induction l with
  | nil => simp
  | cons a t ih =>
    intro x hx
    by_cases ha : p a = true
    · simp [findLineIdx, ha] at h
    · have ha' : p a = false := by
        cases hpa : p a
        · rfl
        · exact absurd hpa ha
      simp only [findLineIdx, ha', Bool.false_eq_true, if_false,
        Option.map_eq_none'] at h
      rcases List.mem_cons.1 hx with rfl | hx
      · exact ha'
      · exact ih h x hx

lemma update_directive_of_found {kw r : PyStr} {k : Nat} {l : List PyStr}
    {i : Nat} (h : findLineIdx (matchesKw kw) l = some i) :
    update_directive kw r k l = l.set i r := by
  unfold update_directive
  rw [h]

lemma update_directive_of_none {kw r : PyStr} {k : Nat} {l : List PyStr}
    (h : findLineIdx (matchesKw kw) l = none) :
    update_directive kw r k l = pyInsert k r l := by
  unfold update_directive
  rw [h]

lemma update_directive_establish (kw r : PyStr) (k : Nat) (l : List PyStr) :
    ReplacedAt (matchesKw kw) r (update_directive kw r k l) := by
  cases hf : findLineIdx (matchesKw kw) l with
  | some i =>
    obtain ⟨pre, b, suf, hdec, hlen, hpre, _⟩ := findLineIdx_some hf
    rw [update_directive_of_found hf, hdec, ← hlen, set_append_cons]
    exact ⟨pre, suf, rfl, hpre⟩
  | none =>
    have hall := findLineIdx_none hf
    rw [update_directive_of_none hf]
    refine ⟨l.take k, l.drop k, rfl, ?_⟩
    intro a ha
    exact hall a (List.take_subset k l ha)

lemma append_directive_eq_update (kw r : PyStr) (l : List PyStr) :
    append_directive kw r l = update_directive kw r l.length l := by
  unfold append_directive update_directive
  cases hf : findLineIdx (matchesKw kw) l with
  | some i => rfl
  | none =>
    unfold pyInsert
    rw [List.take_length, List.drop_length]

lemma update_directive_preserve {p : PyStr → Bool} {r : PyStr}
    {l : List PyStr} (hRep : ReplacedAt p r l) (kw x : PyStr) (k : Nat)
    (hx : p x = false) (hr : matchesKw kw r = false) :
    ReplacedAt p r (update_directive kw x k l) := by
  obtain ⟨pre, suf, hdec, hpre⟩ := hRep
  cases hf : findLineIdx (matchesKw kw) l with
  | some i =>
    obtain ⟨pre2, b, suf2, hdec2, hlen2, hpre2, hb⟩ := findLineIdx_some hf
    rw [update_directive_of_found hf]
    rcases Nat.lt_trichotomy i pre.length with hlt | heq | hgt
    · -- the replaced line sits inside `pre`
      rw [hdec, set_append_left pre (r :: suf) i x hlt]
      refine ⟨pre.set i x, suf, rfl, ?_⟩
      intro a ha
      rcases List.mem_or_eq_of_mem_set ha with ha | rfl
      · exact hpre a ha
      · exact hx
    · -- the matched line would be `r` itself, contradicting `hr`
      exfalso
      have hdec' : l = pre ++ r :: suf := hdec
      rw [hdec2] at hdec'
      have hlen' : pre2.length = pre.length := by omega
      have hbr : b :: suf2 = r :: suf := (List.append_inj hdec' hlen').2
      injection hbr with hbe _
      rw [hbe] at hb
      rw [hb] at hr
      exact Bool.noConfusion hr
    · -- the replaced line sits inside `suf`
      rw [hdec, set_append_right pre (r :: suf) i x (by omega)]
      have hsub : i - pre.length = (i - pre.length - 1) + 1 := by omega
      rw [hsub]
      exact ⟨pre, suf.set (i - pre.length - 1) x, rfl, hpre⟩
  | none =>
    rw [update_directive_of_none hf]
    unfold pyInsert
    by_cases hk : k ≤ pre.length
    · rw [hdec, List.take_append_eq_append_take, List.drop_append_eq_append_drop]
      rw [show k - pre.length = 0 from by omega]
      simp only [List.take_zero, List.append_nil, List.drop_zero]
      refine ⟨pre.take k ++ x :: pre.drop k, suf, by simp, ?_⟩
      intro a ha
      rcases List.mem_append.1 ha with ha | ha
      · exact hpre a (List.take_subset k pre ha)
      · rcases List.mem_cons.1 ha with rfl | ha
        · exact hx
        · exact hpre a (List.drop_subset k pre ha)
    · rw [hdec, List.take_append_eq_append_take, List.drop_append_eq_append_drop]
      rw [List.take_of_length_le (by omega), List.drop_eq_nil_of_le (by omega)]
      have hsub : k - pre.length = (k - pre.length - 1) + 1 := by omega
      rw [hsub, List.take_succ_cons, List.drop_succ_cons, List.nil_append]
      exact ⟨pre, suf.take (k - pre.length - 1) ++ x :: suf.drop (k - pre.length - 1),
        by simp, hpre⟩

lemma update_directive_fixed {kw r : PyStr} {l : List PyStr} (k : Nat)
    (hRep : ReplacedAt (matchesKw kw) r l) (hr : matchesKw kw r = true) :
    update_directive kw r k l = l := by
  obtain ⟨pre, suf, hdec, hpre⟩ := hRep
  have hf : findLineIdx (matchesKw kw) l = some pre.length := by
    rw [hdec]
    exact findLineIdx_prepend hpre hr suf
  rw [update_directive_of_found hf, hdec, set_append_cons]

/-! ## The four corrected directive lines and their keyword matches -/

lemma strip_memLine (g : Int) :
    pyStrip (("%mem=".data) ++ strInt g ++ ("MB".data))
      = ("%mem=".data) ++ strInt g ++ ("MB".data) := by
  apply pyStrip_eq_self_of_all
  intro c hc
  rcases List.mem_append.1 hc with hc | hc
  · rcases List.mem_append.1 hc with hc | hc
    · exact (by decide : ∀ x ∈ ("%mem=".data : PyStr), pyIsWs x = false) c hc
    · exact pyIsWs_strInt g c hc
  · exact (by decide : ∀ x ∈ ("MB".data : PyStr), pyIsWs x = false) c hc

lemma strip_nprocLine (n : Int) :
    pyStrip (("%nprocshared=".data) ++ strInt n)
      = ("%nprocshared=".data) ++ strInt n := by
  apply pyStrip_eq_self_of_all
  intro c hc
  rcases List.mem_append.1 hc with hc | hc
  · exact (by decide : ∀ x ∈ ("%nprocshared=".data : PyStr), pyIsWs x = false) c hc
  · exact pyIsWs_strInt n c hc

lemma strip_chkLine (stem : PyStr) :
    pyStrip (("%chk=".data) ++ stem ++ (".chk".data))
      = ("%chk=".data) ++ stem ++ (".chk".data) := by
  apply pyStrip_eq_self
  · intro c hc
    rw [show ((("%chk=".data) ++ stem ++ (".chk".data) : PyStr)).head?
        = some '%' from rfl] at hc
    injection hc with hc
    rw [← hc]
    decide
  · intro c hc
    rw [getLastQ_append (("%chk=".data) ++ stem)
      (by
        intro h
        exact absurd (congrArg List.length h) (by decide))] at hc
    rw [show ((".chk".data : PyStr)).getLast? = some 'k' from rfl] at hc
    injection hc with hc
    rw [← hc]
    decide

lemma strip_maxdiskLine (d : Int) :
    pyStrip (("maxdisk=".data) ++ strInt d ++ ("MB".data))
      = ("maxdisk=".data) ++ strInt d ++ ("MB".data) := by
  apply pyStrip_eq_self_of_all
  intro c hc
  rcases List.mem_append.1 hc with hc | hc
  · rcases List.mem_append.1 hc with hc | hc
    · exact (by decide : ∀ x ∈ ("maxdisk=".data : PyStr), pyIsWs x = false) c hc
    · exact pyIsWs_strInt d c hc
  · exact (by decide : ∀ x ∈ ("MB".data : PyStr), pyIsWs x = false) c hc

lemma mkw_mem_self (g : Int) :
    matchesKw ("%mem".data) (("%mem=".data) ++ strInt g ++ ("MB".data)) = true := by
  unfold matchesKw
  rw [strip_memLine]
  rfl

lemma mkw_nproc_self (n : Int) :
    matchesKw ("%nprocshared".data)
      (("%nprocshared=".data) ++ strInt n) = true := by
  unfold matchesKw
  rw [strip_nprocLine]
  rfl

lemma mkw_chk_self (stem : PyStr) :
    matchesKw ("%chk".data)
      (("%chk=".data) ++ stem ++ (".chk".data)) = true := by
  unfold matchesKw
  rw [strip_chkLine]
  rfl

lemma mkw_maxdisk_self (d : Int) :
    matchesKw ("maxdisk".data)
      (("maxdisk=".data) ++ strInt d ++ ("MB".data)) = true := by
  unfold matchesKw
  rw [strip_maxdiskLine]
  rfl

lemma mkw_mem_nproc (n : Int) :
    matchesKw ("%mem".data) (("%nprocshared=".data) ++ strInt n) = false := by
  unfold matchesKw
  rw [strip_nprocLine]
  rfl

lemma mkw_mem_chk (stem : PyStr) :
    matchesKw ("%mem".data)
      (("%chk=".data) ++ stem ++ (".chk".data)) = false := by
  unfold matchesKw
  rw [strip_chkLine]
  rfl

lemma mkw_mem_maxdisk (d : Int) :
    matchesKw ("%mem".data)
      (("maxdisk=".data) ++ strInt d ++ ("MB".data)) = false := by
  unfold matchesKw
  rw [strip_maxdiskLine]
  rfl

lemma mkw_nproc_mem (g : Int) :
    matchesKw ("%nprocshared".data)
      (("%mem=".data) ++ strInt g ++ ("MB".data)) = false := by
  unfold matchesKw
  rw [strip_memLine]
  rfl

lemma mkw_nproc_chk (stem : PyStr) :
    matchesKw ("%nprocshared".data)
      (("%chk=".data) ++ stem ++ (".chk".data)) = false := by
  unfold matchesKw
  rw [strip_chkLine]
  rfl

lemma mkw_nproc_maxdisk (d : Int) :
    matchesKw ("%nprocshared".data)
      (("maxdisk=".data) ++ strInt d ++ ("MB".data)) = false := by
  unfold matchesKw
  rw [strip_maxdiskLine]
  rfl

lemma mkw_chk_mem (g : Int) :
    matchesKw ("%chk".data)
      (("%mem=".data) ++ strInt g ++ ("MB".data)) = false := by
  unfold matchesKw
  rw [strip_memLine]
  rfl

lemma mkw_chk_nproc (n : Int) :
    matchesKw ("%chk".data) (("%nprocshared=".data) ++ strInt n) = false := by
  unfold matchesKw
  rw [strip_nprocLine]
  rfl

lemma mkw_chk_maxdisk (d : Int) :
    matchesKw ("%chk".data)
      (("maxdisk=".data) ++ strInt d ++ ("MB".data)) = false := by
  unfold matchesKw
  rw [strip_maxdiskLine]
  rfl

lemma mkw_maxdisk_mem (g : Int) :
    matchesKw ("maxdisk".data)
      (("%mem=".data) ++ strInt g ++ ("MB".data)) = false := by
  unfold matchesKw
  rw [strip_memLine]
  rfl

lemma mkw_maxdisk_nproc (n : Int) :
    matchesKw ("maxdisk".data) (("%nprocshared=".data) ++ strInt n) = false := by
  unfold matchesKw
  rw [strip_nprocLine]
  rfl

lemma mkw_maxdisk_chk (stem : PyStr) :
    matchesKw ("maxdisk".data)
      (("%chk=".data) ++ stem ++ (".chk".data)) = false := by
  unfold matchesKw
  rw [strip_chkLine]
  rfl

/-! ## Idempotency of the input-file correction -/

lemma correctLines_eq_none (stem : PyStr) (s : SubmitSettings)
    (lines : List PyStr) (h : s.maxdisk_mb = none) :
    correctLines stem s lines =
      update_directive ("%chk".data) (("%chk=".data) ++ stem ++ (".chk".data)) 2
        (update_directive ("%nprocshared".data)
          (("%nprocshared=".data) ++ strInt s.cores) 1
          (update_directive ("%mem".data)
            (("%mem=".data) ++ strInt (gmValue s.memory_mb) ++ ("MB".data)) 0
            lines)) := by
  unfold correctLines
  rw [h]

lemma correctLines_eq_some (stem : PyStr) (s : SubmitSettings)
    (lines : List PyStr) (d : Int) (h : s.maxdisk_mb = some d) :
    correctLines stem s lines =
      append_directive ("maxdisk".data)
        (("maxdisk=".data) ++ strInt d ++ ("MB".data))
        (update_directive ("%chk".data) (("%chk=".data) ++ stem ++ (".chk".data)) 2
          (update_directive ("%nprocshared".data)
            (("%nprocshared=".data) ++ strInt s.cores) 1
            (update_directive ("%mem".data)
              (("%mem=".data) ++ strInt (gmValue s.memory_mb) ++ ("MB".data)) 0
              lines))) := by
  unfold correctLines
  rw [h]

lemma chain3_idem (kw1 kw2 kw3 r1 r2 r3 : PyStr) (k1 k2 k3 : Nat)
    (m11 : matchesKw kw1 r1 = true) (m22 : matchesKw kw2 r2 = true)
    (m33 : matchesKw kw3 r3 = true)
    (m12 : matchesKw kw1 r2 = false) (m13 : matchesKw kw1 r3 = false)
    (m21 : matchesKw kw2 r1 = false) (m23 : matchesKw kw2 r3 = false)
    (m31 : matchesKw kw3 r1 = false) (m32 : matchesKw kw3 r2 = false)
    (l : List PyStr) :
    update_directive kw3 r3 k3 (update_directive kw2 r2 k2
        (update_directive kw1 r1 k1
          (update_directive kw3 r3 k3 (update_directive kw2 r2 k2
            (update_directive kw1 r1 k1 l)))))
      = update_directive kw3 r3 k3 (update_directive kw2 r2 k2
          (update_directive kw1 r1 k1 l)) := by
  have h1 := update_directive_establish kw1 r1 k1 l
  have h1' := update_directive_preserve h1 kw2 r2 k2 m12 m21
  have h1'' := update_directive_preserve h1' kw3 r3 k3 m13 m31
  have h2 := update_directive_establish kw2 r2 k2
    (update_directive kw1 r1 k1 l)
  have h2' := update_directive_preserve h2 kw3 r3 k3 m23 m32
  have h3 := update_directive_establish kw3 r3 k3
    (update_directive kw2 r2 k2 (update_directive kw1 r1 k1 l))
  rw [update_directive_fixed k1 h1'' m11, update_directive_fixed k2 h2' m22,
    update_directive_fixed k3 h3 m33]

lemma chain4_idem (kw1 kw2 kw3 kw4 r1 r2 r3 r4 : PyStr) (k1 k2 k3 : Nat)
    (m11 : matchesKw kw1 r1 = true) (m22 : matchesKw kw2 r2 = true)
    (m33 : matchesKw kw3 r3 = true) (m44 : matchesKw kw4 r4 = true)
    (m12 : matchesKw kw1 r2 = false) (m13 : matchesKw kw1 r3 = false)
    (m14 : matchesKw kw1 r4 = false)
    (m21 : matchesKw kw2 r1 = false) (m23 : matchesKw kw2 r3 = false)
    (m24 : matchesKw kw2 r4 = false)
    (m31 : matchesKw kw3 r1 = false) (m32 : matchesKw kw3 r2 = false)
    (m34 : matchesKw kw3 r4 = false)
    (m41 : matchesKw kw4 r1 = false) (m42 : matchesKw kw4 r2 = false)
    (m43 : matchesKw kw4 r3 = false)
    (l : List PyStr) :
    append_directive kw4 r4 (update_directive kw3 r3 k3
        (update_directive kw2 r2 k2 (update_directive kw1 r1 k1
          (append_directive kw4 r4 (update_directive kw3 r3 k3
            (update_directive kw2 r2 k2 (update_directive kw1 r1 k1 l)))))))
      = append_directive kw4 r4 (update_directive kw3 r3 k3
          (update_directive kw2 r2 k2 (update_directive kw1 r1 k1 l))) := by
  have h1 := update_directive_establish kw1 r1 k1 l
  have h1' := update_directive_preserve h1 kw2 r2 k2 m12 m21
  have h1'' := update_directive_preserve h1' kw3 r3 k3 m13 m31
  have h2 := update_directive_establish kw2 r2 k2
    (update_directive kw1 r1 k1 l)
  have h2' := update_directive_preserve h2 kw3 r3 k3 m23 m32
  have h3 := update_directive_establish kw3 r3 k3
    (update_directive kw2 r2 k2 (update_directive kw1 r1 k1 l))
  have hA := append_directive_eq_update kw4 r4
    (update_directive kw3 r3 k3
      (update_directive kw2 r2 k2 (update_directive kw1 r1 k1 l)))
  have h1a : ReplacedAt (matchesKw kw1) r1
      (append_directive kw4 r4 (update_directive kw3 r3 k3
        (update_directive kw2 r2 k2 (update_directive kw1 r1 k1 l)))) := by
    rw [hA]
    exact update_directive_preserve h1'' kw4 r4 _ m14 m41
  have h2a : ReplacedAt (matchesKw kw2) r2
      (append_directive kw4 r4 (update_directive kw3 r3 k3
        (update_directive kw2 r2 k2 (update_directive kw1 r1 k1 l)))) := by
    rw [hA]
    exact update_directive_preserve h2' kw4 r4 _ m24 m42
  have h3a : ReplacedAt (matchesKw kw3) r3
      (append_directive kw4 r4 (update_directive kw3 r3 k3
        (update_directive kw2 r2 k2 (update_directive kw1 r1 k1 l)))) := by
    rw [hA]
    exact update_directive_preserve h3 kw4 r4 _ m34 m43
  have h4 : ReplacedAt (matchesKw kw4) r4
      (append_directive kw4 r4 (update_directive kw3 r3 k3
        (update_directive kw2 r2 k2 (update_directive kw1 r1 k1 l)))) := by
    rw [hA]
    exact update_directive_establish kw4 r4 _ _
  rw [update_directive_fixed k1 h1a m11, update_directive_fixed k2 h2a m22,
    update_directive_fixed k3 h3a m33]
  rw [append_directive_eq_update kw4 r4
    (append_directive kw4 r4 (update_directive kw3 r3 k3
      (update_directive kw2 r2 k2 (update_directive kw1 r1 k1 l))))]
  rw [update_directive_fixed _ h4 m44]

lemma correctLines_idem (stem : PyStr) (s : SubmitSettings)
    (lines : List PyStr) :
    correctLines stem s (correctLines stem s lines) = correctLines stem s lines := by
  cases hmd : s.maxdisk_mb with
  | none =>
    rw [correctLines_eq_none stem s lines hmd, correctLines_eq_none stem s _ hmd]
    exact chain3_idem _ _ _ _ _ _ 0 1 2
      (mkw_mem_self _) (mkw_nproc_self _) (mkw_chk_self _)
      (mkw_mem_nproc _) (mkw_mem_chk _)
      (mkw_nproc_mem _) (mkw_nproc_chk _)
      (mkw_chk_mem _) (mkw_chk_nproc _) lines
  | some d =>
    rw [correctLines_eq_some stem s lines d hmd, correctLines_eq_some stem s _ d hmd]
    exact chain4_idem _ _ _ _ _ _ _ _ 0 1 2
      (mkw_mem_self _) (mkw_nproc_self _) (mkw_chk_self _) (mkw_maxdisk_self _)
      (mkw_mem_nproc _) (mkw_mem_chk _) (mkw_mem_maxdisk _)
      (mkw_nproc_mem _) (mkw_nproc_chk _) (mkw_nproc_maxdisk _)
      (mkw_chk_mem _) (mkw_chk_nproc _) (mkw_chk_maxdisk _)
      (mkw_maxdisk_mem _) (mkw_maxdisk_nproc _) (mkw_maxdisk_chk _) lines

/-- Full idempotency of `GaussianInputCorrector.correct` at the file level. -/
lemma correct_idem (stem : PyStr) (s : SubmitSettings) (fileExists : Bool)
    (lines : List PyStr) :
    correct stem s fileExists (correct stem s fileExists lines)
      = correct stem s fileExists lines := by
  unfold correct
  by_cases hen : s.correction_enabled
  · by_cases hex : fileExists
    · simp only [hen, hex, Bool.not_true, Bool.false_eq_true, if_false]
      exact correctLines_idem stem s lines
    · simp [hex]
  · simp [hen]

/-! ## Preset listing and lookup lemmas -/

lemma iterPresetsAux_enum (ls : List PyStr) :
    ∀ k, iterPresetsAux k ls = List.enumFrom k (ls.filterMap presetOfLine) := by
  induction ls with
  | nil => intro k; rfl
  | cons raw rest ih =>
    intro k
    unfold iterPresetsAux presetOfLine
    simp only [List.filterMap_cons]
    by_cases hskip : (pyStrip raw).isEmpty || pyStartswith ("##".data) (pyStrip raw)
    · rw [if_pos hskip]
      simp only [presetOfLine, hskip, if_true]
      exact ih k
    · rw [if_neg hskip]
      simp only [presetOfLine, hskip, Bool.false_eq_true, if_false]
      cases hp : Preset.from_line (pyStrip raw) with
      | some p =>
        rw [ih (k + 1)]
        rfl
      | none => exact ih k

lemma iter_presets_enum (ls : List PyStr) :
    iter_presets ls = List.enumFrom 1 (ls.filterMap presetOfLine) :=
  iterPresetsAux_enum ls 1

lemma enumFrom_map_fst {α : Type} (n : Nat) (l : List α) :
    (List.enumFrom n l).map Prod.fst = List.range' n l.length := by
  induction l generalizing n with
  | nil => rfl
  | cons a t ih =>
    simp only [List.enumFrom, List.map_cons, List.length_cons, List.range',
      ih (n + 1)]

lemma get_preset_eq_none_iff (ls : List PyStr) (n : Int) :
    get_preset ls n = none ↔ (n < 1 ∨ n > (iter_presets ls).length) := by
  unfold get_preset
  by_cases h : n < 1 ∨ n > (iter_presets ls).length
  · simp [h]
  · rw [if_neg h]
    push_neg at h
    obtain ⟨h1, h2⟩ := h
    cases hg : (iter_presets ls).get? (n - 1).toNat with
    | none =>
      rw [List.get?_eq_none] at hg
      exfalso
      omega
    | some p =>
      simp only [hg, Option.map_some']
      constructor
      · intro hc
        exact absurd hc (by simp)
      · intro hc
        omega

/-! ## `_apply_preset` on a numeric index -/

lemma pyLower_strInt_ne {i : Int} {c0 : Char} {wrest : PyStr}
    (hc0 : 97 ≤ c0.toNat) : pyLower (strInt i) ≠ (c0 :: wrest) := by
  intro h
  rw [pyLower_strInt] at h
  obtain ⟨c, rest, hc⟩ := strInt_cons i
  rw [hc] at h
  injection h with h1 _
  have hm := mem_strInt i c (hc ▸ List.mem_cons_self c rest)
  rcases hm with rfl | hd
  · rw [← h1] at hc0
    exact absurd hc0 (by decide)
  · rw [h1, isDigitCh_iff] at hd
    omega

lemma apply_preset_num (lines : List PyStr) (n : Int) (s : SubmitSettings) :
    apply_preset lines (strInt n) s =
      (match get_preset lines n with
       | none =>
         .exit 1 []
           [("Preset ".data) ++ strInt n ++ (" not found".data)]
       | some preset => .ok (s.update_from_preset n preset)) := by
  unfold apply_preset
  rw [if_neg (pyLower_strInt_ne (i := n) (by decide)),
    if_neg (pyLower_strInt_ne (i := n) (by decide)), pyInt?_strInt]

/-! ## Megabyte-suffix round trip (for `format_mb`) -/

lemma parse_to_mb_strInt_MB (k : Int) (d : Option Int) :
    UnitParser.parse_to_mb (some (strInt k ++ "MB".data)) d = some (some k) := by
  rw [UnitParser.parse_to_mb_some]
  have hstrip : pyStrip (strInt k ++ "MB".data) = strInt k ++ "MB".data := by
    apply pyStrip_eq_self_of_all
    intro c hc
    rcases List.mem_append.1 hc with hc | hc
    · exact pyIsWs_strInt k c hc
    · rcases List.mem_cons.1 hc with rfl | hc
      · decide
      · rcases List.mem_cons.1 hc with rfl | hc
        · decide
        · simp at hc
  have hne : (strInt k ++ "MB".data).isEmpty = false := by
    obtain ⟨c, rest, hc⟩ := strInt_cons k
    rw [hc]; rfl
  have hupper : pyUpper (strInt k ++ "MB".data) = strInt k ++ "MB".data := by
    have hmap : pyUpper (strInt k ++ "MB".data)
        = pyUpper (strInt k) ++ pyUpper ("MB".data) := List.map_append _ _ _
    rw [hmap, pyUpper_strInt]
    rfl
  have hMB : pyEndswith ("MB".data) (strInt k ++ "MB".data) = true := by
    rw [show ("MB".data : PyStr) = ['M', 'B'] from rfl, endswith_append_two]
    decide
  have hdrop : pyDropRight 2 (strInt k ++ "MB".data) = strInt k := by
    unfold pyDropRight
    rw [List.length_append,
      show (("MB".data : PyStr)).length = 2 from rfl,
      Nat.add_sub_cancel, take_length_append]
  simp only [hstrip, hne, Bool.false_eq_true, if_false, hupper, hMB, if_true,
    hdrop, pyInt?_strInt, Int.mul_one]

lemma format_mb_roundtrip (k : Int) (d : Option Int) :
    UnitParser.parse_to_mb (some (UnitParser.format_mb k)) d = some (some k) := by
  unfold UnitParser.format_mb
  by_cases hmod : Int.emod k 1000 = 0
  · rw [if_pos hmod]
    obtain ⟨c, rfl⟩ := Int.dvd_of_emod_eq_zero hmod
    rw [Int.mul_fdiv_cancel_left c (by omega),
      UnitParser.parse_to_mb_strInt_GB, Int.mul_comm]
  · rw [if_neg hmod, parse_to_mb_strInt_MB]

/-! ## First-match existence -/

lemma findLineIdx_some_of_exists {p : PyStr → Bool} {l : List PyStr}
    (h : ∃ x ∈ l, p x = true) : ∃ j, findLineIdx p l = some j := by
  cases hf : findLineIdx p l with
  | some j => exact ⟨j, rfl⟩
  | none =>
    obtain ⟨x, hx, hpx⟩ := h
    rw [findLineIdx_none hf x hx] at hpx
    exact absurd hpx (by simp)

/-! ## The `%mem` line of a corrected file -/

lemma memLine_mem_correctLines (stem : PyStr) (s : SubmitSettings)
    (lines : List PyStr) :
    (("%mem=".data) ++ strInt (gmValue s.memory_mb) ++ ("MB".data))
      ∈ correctLines stem s lines := by
  have h1 := update_directive_establish ("%mem".data)
    (("%mem=".data) ++ strInt (gmValue s.memory_mb) ++ ("MB".data)) 0 lines
  have h1' := update_directive_preserve h1 ("%nprocshared".data)
    (("%nprocshared=".data) ++ strInt s.cores) 1
    (mkw_mem_nproc s.cores) (mkw_nproc_mem (gmValue s.memory_mb))
  have h1'' := update_directive_preserve h1' ("%chk".data)
    (("%chk=".data) ++ stem ++ (".chk".data)) 2
    (mkw_mem_chk stem) (mkw_chk_mem (gmValue s.memory_mb))
  cases hmd : s.maxdisk_mb with
  | none =>
    rw [correctLines_eq_none stem s lines hmd]
    obtain ⟨pre, suf, hdec, _⟩ := h1''
    rw [hdec]
    exact List.mem_append.2 (Or.inr (List.mem_cons_self _ _))
  | some d =>
    rw [correctLines_eq_some stem s lines d hmd, append_directive_eq_update]
    obtain ⟨pre, suf, hdec, _⟩ := update_directive_preserve h1''
      ("maxdisk".data)
      (("maxdisk=".data) ++ strInt d ++ ("MB".data))
      ((update_directive ("%chk".data)
        (("%chk=".data) ++ stem ++ (".chk".data)) 2
        (update_directive ("%nprocshared".data)
          (("%nprocshared=".data) ++ strInt s.cores) 1
          (update_directive ("%mem".data)
            (("%mem=".data) ++ strInt (gmValue s.memory_mb) ++ ("MB".data)) 0
            lines))).length)
      (mkw_mem_maxdisk d) (mkw_maxdisk_mem (gmValue s.memory_mb))
    rw [hdec]
    exact List.mem_append.2 (Or.inr (List.mem_cons_self _ _))

/-! ## Dry-run behaviour of the pipeline -/

lemma processFile_dry (script : PyStr) (s : SubmitSettings) (f : JobFile)
    (hdr : s.dry_run = true) :
    (∀ cmd, Event.schedulerCalled cmd ∉ processFile script s f) ∧
    (∀ st, Event.logAppended st ∉ processFile script s f) ∧
    Event.commandPrinted (build_command script s (f.stem.take 15) f.stem)
      ∈ processFile script s f := by
  by_cases hq : s.quiet
  · simp [processFile, hdr, hq]
  · by_cases ha : f.answerYes
    · simp [processFile, hdr, hq, ha]
    · simp [processFile, hdr, hq, ha]

lemma processJobsAux_dry (script : PyStr) (s : SubmitSettings)
    (hdr : s.dry_run = true) :
    ∀ files : List JobFile, (∀ f ∈ files, f.valid = true) →
      (processJobsAux script s files).1 = 0 ∧
      (∀ cmd, Event.schedulerCalled cmd ∉ (processJobsAux script s files).2) ∧
      (∀ st, Event.logAppended st ∉ (processJobsAux script s files).2) ∧
      (∀ f ∈ files,
        Event.commandPrinted (build_command script s (f.stem.take 15) f.stem)
          ∈ (processJobsAux script s files).2) := by
  intro files
  induction files with
  | nil => intro _; simp [processJobsAux]
  | cons f rest ih =>
    intro hv
    have hvf : f.valid = true := hv f (List.mem_cons_self f rest)
    obtain ⟨ih1, ih2, ih3, ih4⟩ := ih (fun g hg => hv g (List.mem_cons_of_mem f hg))
    obtain ⟨hd1, hd2, hd3⟩ := processFile_dry script s f hdr
    unfold processJobsAux
    simp only [hvf, Bool.not_true, Bool.false_eq_true, if_false]
    refine ⟨ih1, ?_, ?_, ?_⟩
    · intro cmd hc
      rcases List.mem_append.1 hc with hc | hc
      · exact hd1 cmd hc
      · exact ih2 cmd hc
    · intro st hc
      rcases List.mem_append.1 hc with hc | hc
      · exact hd2 st hc
      · exact ih3 st hc
    · intro g hg
      rcases List.mem_cons.1 hg with rfl | hg
      · exact List.mem_append.2 (Or.inl hd3)
      · exact List.mem_append.2 (Or.inr (ih4 g hg))

/-! ## Claim theorems -/

/-- C2: `applyPreset` sets `softwareVersion` and `maxDisk` to exactly the
preset's values (full substitution — absent preset values reset the
configuration's fields to absent), sets `presetLoaded` to the preset index,
and recomputes the annotation as a single-line rendering of the now-effective
queue / cores / memory / walltime / version / maxDisk; moreover a preset
parsed from a line with an empty version field never carries an empty-string
version (it becomes absent). -/
theorem C2_applyPreset_full_substitution :
    (∀ (s : SubmitSettings) (n : Int) (p : Preset),
      (s.update_from_preset n p).gaussian_version = p.gaussian_version ∧
      (s.update_from_preset n p).maxdisk_mb = p.maxdisk_mb ∧
      (s.update_from_preset n p).preset_loaded = some n ∧
      (s.update_from_preset n p).whitestripes =
        pyStrip (("Charged preset : ".data) ++
          (s.update_from_preset n p).queue ++ (" ".data) ++
          strInt (s.update_from_preset n p).cores ++ (" ".data) ++
          UnitParser.format_mb (s.update_from_preset n p).memory_mb ++
          (" ".data) ++
          (s.update_from_preset n p).walltime ++ (" ".data) ++
          ((s.update_from_preset n p).gaussian_version.getD []) ++ (" ".data) ++
          (match (s.update_from_preset n p).maxdisk_mb with
           | some d => UnitParser.format_mb d
           | none => []))) ∧
    (∀ (line : PyStr) (pr : Preset),
      Preset.from_line line = some pr → pr.gaussian_version ≠ some []) := by
  constructor
  · intro s n p
    unfold SubmitSettings.update_from_preset
    dsimp only
    exact ⟨rfl, rfl, rfl, rfl⟩
  · intro line pr hp hcontra
    unfold Preset.from_line at hp
    dsimp only at hp
    split at hp
    · split at hp
      · exact Option.noConfusion hp
      · split at hp
        · exact Option.noConfusion hp
        · split at hp
          · exact Option.noConfusion hp
          · injection hp with hp
            rw [← hp] at hcontra
            simp only [Preset.mk.injEq] at hcontra
            split at hcontra
            · exact Option.noConfusion hcontra
            · rename_i hne
              injection hcontra with hcontra
              rw [hcontra] at hne
              exact hne rfl
    · exact Option.noConfusion hp

/-- C2 witness: concrete instances of both clauses. -/
theorem C2_witness :
    ((({} : SubmitSettings).update_from_preset 1
        ⟨("q".data), 4, 1000, ("w".data), none, none⟩).gaussian_version
      = none) ∧
    (⟨("q".data), 4, 1000, ("w".data), none, none⟩ : Preset).gaussian_version
      ≠ some [] :=
  ⟨(C2_applyPreset_full_substitution.1 {} 1
      ⟨("q".data), 4, 1000, ("w".data), none, none⟩).1,
   C2_applyPreset_full_substitution.2 ("q;4;1000MB;w;;".data)
      ⟨("q".data), 4, 1000, ("w".data), none, none⟩ (by decide)⟩

/-- C10: a preset whose mandatory field is falsy (empty queue, zero cores,
memory parsed to zero) leaves the configuration's prior value for that field
in place instead of overwriting it. -/
theorem C10_falsy_preset_fields_preserved :
    ∀ (s : SubmitSettings) (n : Int) (p : Preset),
      (p.queue = [] → (s.update_from_preset n p).queue = s.queue) ∧
      (p.cores = 0 → (s.update_from_preset n p).cores = s.cores) ∧
      (p.memory_mb = 0 → (s.update_from_preset n p).memory_mb = s.memory_mb) := by
  intro s n p
  refine ⟨fun h => ?_, fun h => ?_, fun h => ?_⟩ <;>
    simp [SubmitSettings.update_from_preset, h]

/-- C10 witness: a preset with empty queue, zero cores and zero memory
preserves all three prior values. -/
theorem C10_witness :
    ((({} : SubmitSettings).update_from_preset 2
        ⟨[], 0, 0, ("w".data), none, none⟩).queue
      = ({} : SubmitSettings).queue) ∧
    ((({} : SubmitSettings).update_from_preset 2
        ⟨[], 0, 0, ("w".data), none, none⟩).cores
      = ({} : SubmitSettings).cores) ∧
    ((({} : SubmitSettings).update_from_preset 2
        ⟨[], 0, 0, ("w".data), none, none⟩).memory_mb
      = ({} : SubmitSettings).memory_mb) :=
  ⟨(C10_falsy_preset_fields_preserved {} 2 ⟨[], 0, 0, ("w".data), none, none⟩).1 rfl,
   (C10_falsy_preset_fields_preserved {} 2 ⟨[], 0, 0, ("w".data), none, none⟩).2.1 rfl,
   (C10_falsy_preset_fields_preserved {} 2 ⟨[], 0, 0, ("w".data), none, none⟩).2.2 rfl⟩

/-- C3: `iter_presets` numbers exactly the syntactically valid, non-comment,
non-blank lines with consecutive indices starting at 1 in file order
(`enumFrom 1` over the per-line filter); blank / comment / malformed lines
neither consume an index nor gap the numbering.  The spec's concrete example
(comment, blank, malformed, then two valid lines) yields indices 1 and 2. -/
theorem C3_preset_indexing :
    (∀ fileLines : List PyStr,
      iter_presets fileLines
        = List.enumFrom 1 (fileLines.filterMap presetOfLine) ∧
      (iter_presets fileLines).map Prod.fst
        = List.range' 1 (fileLines.filterMap presetOfLine).length) ∧
    (iter_presets [("## comment".data), [], ("bad;line".data),
        ("q;4;1000MB;w;;".data), ("r;8;2GB;x;d01;1MB".data)]).map Prod.fst
      = [1, 2] := by
  constructor
  · intro fileLines
    refine ⟨iter_presets_enum fileLines, ?_⟩
    rw [iter_presets_enum, enumFrom_map_fst]
  · decide

/-- C6: input-file correction is idempotent — applying
`GaussianInputCorrector.correct` twice to any file content (for any
settings and any existence flag) gives the same content as applying it
once. -/
theorem C6_correction_idempotent :
    ∀ (stem : PyStr) (s : SubmitSettings) (fileExists : Bool)
      (lines : List PyStr),
      correct stem s fileExists (correct stem s fileExists lines)
        = correct stem s fileExists lines :=
  fun stem s fileExists lines => correct_idem stem s fileExists lines

/-- C7 counterexample: a bare integer count does *not* round-trip as a
string — `format_mb(parse_to_mb("5")) = "5MB" ≠ "5"` (and likewise
`"48000" ↦ "48GB"`), refuting the bare-integer half of the claim. -/
theorem C7_counterexample :
    UnitParser.parse_to_mb (some ("5".data)) none = some (some 5) ∧
    UnitParser.format_mb 5 = "5MB".data ∧
    ("5MB".data : PyStr) ≠ ("5".data) ∧
    UnitParser.parse_to_mb (some ("48000".data)) none = some (some 48000) ∧
    UnitParser.format_mb 48000 = "48GB".data ∧
    ("48GB".data : PyStr) ≠ ("48000".data) := by
  decide

/-- C7 amended: the round trip holds as stated for every clean GB-suffixed
rendering (`parse` then `format` reproduces the string, and the value is
`k * 1000`); a bare integer count re-parses to the same value, and re-parsing
its `format_mb` rendering also returns the same value (the rendering merely
appends a unit suffix, so only string equality fails for bare integers). -/
theorem C7_roundtrip (k : Int) (d : Option Int) :
    (UnitParser.parse_to_mb (some (strInt k ++ "GB".data)) d
        = some (some (k * 1000)) ∧
      UnitParser.format_mb (k * 1000) = strInt k ++ "GB".data) ∧
    (UnitParser.parse_to_mb (some (strInt k)) d = some (some k) ∧
      UnitParser.parse_to_mb (some (UnitParser.format_mb k)) d
        = some (some k)) :=
  ⟨⟨UnitParser.parse_to_mb_strInt_GB k d, UnitParser.format_mb_mul1000 k⟩,
   ⟨UnitParser.parse_to_mb_strInt k d, format_mb_roundtrip k d⟩⟩

/-- C5 counterexample: with the default configured memory 47988 the written
`%mem` value is `(47988 * 15) // 20 = 35991`, while the claim's formula
`(47988 // 20) * 15` gives `35985` — multiply-then-divide and
divide-then-multiply disagree off multiples of 20, so the claim's formula
does not describe the code. -/
theorem C5_counterexample :
    gmValue 47988 = 35991 ∧
    (Int.fdiv 47988 20) * 15 = 35985 ∧
    correct ("water".data) {} true [("hello".data)]
      = [("%mem=35991MB".data), ("%nprocshared=12".data),
         ("%chk=water.chk".data), ("hello".data)] ∧
    (("%mem=".data) ++ strInt ((Int.fdiv 47988 20) * 15) ++ ("MB".data))
      ∉ correct ("water".data) {} true [("hello".data)] := by
  decide

/-- C5 amended: with correction enabled on an existing file, the corrected
content contains the memory directive `%mem=⟨(memory * 15) // 20⟩MB`
(multiplication by 15 first, then integer floor division by 20); in
particular a configured memory of 48000 yields the directive value 36000. -/
theorem C5_memory_directive (stem : PyStr) (s : SubmitSettings)
    (lines : List PyStr) (hen : s.correction_enabled = true) :
    (("%mem=".data) ++ strInt (Int.fdiv (s.memory_mb * 15) 20) ++ ("MB".data))
      ∈ correct stem s true lines ∧
    Int.fdiv (48000 * 15) 20 = 36000 := by
  constructor
  · unfold correct
    rw [hen]
    exact memLine_mem_correctLines stem s lines
  · decide

/-- C5 witness: the amended statement evaluated at the default settings. -/
theorem C5_witness :
    (("%mem=".data) ++ strInt (Int.fdiv (47988 * 15) 20) ++ ("MB".data))
      ∈ correct ("w".data) {} true [] ∧
    Int.fdiv (48000 * 15) 20 = 36000 :=
  C5_memory_directive ("w".data) {} [] rfl

/-- C4: when some line's trimmed text starts with the keyword
(case-insensitively), the upsert replaces exactly the first such line in
place — the lines before it (all non-matching) and after it are preserved,
and the length is unchanged; when no line matches, the insert-style upsert
inserts the replacement at the fallback index (take/drop decomposition at
the fallback position), growing the list by exactly one, and the
append-style upsert (maxdisk, `replace_line` without an index) appends. -/
theorem C4_upsert (lines : List PyStr) (kw repl : PyStr) (k : Nat) :
    ((∃ x ∈ lines, matchesKw kw x = true) →
      ∃ pre b suf, lines = pre ++ b :: suf ∧ matchesKw kw b = true ∧
        (∀ a ∈ pre, matchesKw kw a = false) ∧
        update_directive kw repl k lines = pre ++ repl :: suf ∧
        (update_directive kw repl k lines).length = lines.length ∧
        append_directive kw repl lines = pre ++ repl :: suf) ∧
    ((∀ x ∈ lines, matchesKw kw x = false) →
      update_directive kw repl k lines
        = lines.take k ++ repl :: lines.drop k ∧
      (update_directive kw repl k lines).length = lines.length + 1 ∧
      append_directive kw repl lines = lines ++ [repl]) := by
  constructor
  · intro hex
    obtain ⟨j, hf⟩ := findLineIdx_some_of_exists hex
    obtain ⟨pre, b, suf, hdec, hlen, hpre, hb⟩ := findLineIdx_some hf
    refine ⟨pre, b, suf, hdec, hb, hpre, ?_, ?_, ?_⟩
    · rw [update_directive_of_found hf, hdec, ← hlen, set_append_cons]
    · rw [update_directive_of_found hf, List.length_set]
    · rw [append_directive_eq_update, update_directive_of_found hf, hdec,
        ← hlen, set_append_cons]
  · intro hall
    have hf : findLineIdx (matchesKw kw) lines = none := by
      cases hf : findLineIdx (matchesKw kw) lines with
      | none => rfl
      | some j =>
        obtain ⟨pre, b, suf, hdec, _, _, hb⟩ := findLineIdx_some hf
        rw [hall b
          (hdec ▸ List.mem_append.2 (Or.inr (List.mem_cons_self b suf)))] at hb
        exact absurd hb (by simp)
    refine ⟨?_, ?_, ?_⟩
    · rw [update_directive_of_none hf]
      rfl
    · rw [update_directive_of_none hf]
      unfold pyInsert
      rw [List.length_append, List.length_cons, List.length_take,
        List.length_drop]
      omega
    · rw [append_directive_eq_update, update_directive_of_none hf]
      unfold pyInsert
      rw [List.take_length, List.drop_length]

/-- C4 witness: the no-match case on a concrete two-line list with fallback
index 1 inserts in the middle and grows the list by one; the append-style
upsert appends. -/
theorem C4_witness :
    update_directive ("%mem".data) ("%mem=1MB".data) 1
        [("a".data), ("b".data)]
      = [("a".data), ("%mem=1MB".data), ("b".data)] ∧
    (update_directive ("%mem".data) ("%mem=1MB".data) 1
        [("a".data), ("b".data)]).length = 3 ∧
    append_directive ("%mem".data) ("%mem=1MB".data)
        [("a".data), ("b".data)]
      = [("a".data), ("b".data), ("%mem=1MB".data)] :=
  (C4_upsert [("a".data), ("b".data)] ("%mem".data) ("%mem=1MB".data) 1).2
    (by decide)

/-- C8 counterexample: a numeric out-of-range preset index is fatal with a
one-line stderr diagnostic, but the valid preset listing is *not* printed on
that path (empty stdout), even though the listing exists — the listing hint
appears only for a non-numeric preset identifier. -/
theorem C8_counterexample :
    apply_preset [("q;4;1000MB;w;;".data)] ("5".data) {}
      = .exit 1 [] [("Preset 5 not found".data)] ∧
    show_presets [("q;4;1000MB;w;;".data)] ≠ [] ∧
    apply_preset [("q;4;1000MB;w;;".data)] ("bogus".data) {}
      = .exit 1 (show_presets [("q;4;1000MB;w;;".data)])
          [("Invalid preset identifier: bogus".data)] := by
  decide

/-- C8 amended: preset lookup by numeric index fails exactly when the index
is outside `[1, count]`, and that failure is fatal — exit code 1 with a
one-line diagnostic on stderr and nothing on stdout (the preset listing hint
is printed only for a non-numeric identifier, not on the out-of-range
path). -/
theorem C8_preset_lookup (lines : List PyStr) (n : Int) (s : SubmitSettings) :
    (get_preset lines n = none ↔ (n < 1 ∨ n > (iter_presets lines).length)) ∧
    (get_preset lines n = none →
      apply_preset lines (strInt n) s
        = .exit 1 [] [("Preset ".data) ++ strInt n ++ (" not found".data)]) := by
  refine ⟨get_preset_eq_none_iff lines n, fun h => ?_⟩
  rw [apply_preset_num, h]

/-- C8 witness: index 9 on a one-preset file is out of range and fatal with
an empty stdout. -/
theorem C8_witness :
    apply_preset [("q;4;1000MB;w;;".data)] (strInt 9) {}
      = .exit 1 [] [("Preset ".data) ++ strInt 9 ++ (" not found".data)] :=
  (C8_preset_lookup [("q;4;1000MB;w;;".data)] 9 {}).2 (by decide)

/-- C1 counterexample: a `--memory 0` override appearing after `--preset 1`
parses to the value 0, yet the resulting configuration keeps the preset's
memory (1000) instead of the override's value — Python's `value or
settings.memory_mb` fallback drops falsy override values, so the override
does not always win. -/
theorem C1_counterexample :
    UnitParser.parse_to_mb (some ("0".data)) (some 1000) = some (some 0) ∧
    (settingsOf (parse ⟨[("q;4;1000MB;w;;".data)], []⟩
        [("--preset".data), ("1".data), ("--memory".data), ("0".data)]
        {})).map (fun s => s.memory_mb) = some 1000 ∧
    ¬ ((settingsOf (parse ⟨[("q;4;1000MB;w;;".data)], []⟩
        [("--preset".data), ("1".data), ("--memory".data), ("0".data)]
        {})).map (fun s => s.memory_mb) = some 0) := by
  decide

/-- C1 amended: for every starting configuration and valid preset index, an
override token later in the stream wins over the preset for every field,
provided the override's value is effective: cores and max-disk overrides
always take the parsed value, a version override takes any nonempty value,
and queue / memory / walltime overrides take any nonempty (resp. nonzero)
value — an empty or zero value for these three leaves the preset's value in
place, as the counterexample shows. -/
theorem C1_override_after_preset (env : CLIEnv) (s : SubmitSettings) (i : Int)
    (p : Preset) (hp : get_preset env.presetLines i = some p) :
    (∀ q : PyStr, q.isEmpty = false →
      parse env [("--preset".data), strInt i, ("--queue".data), q] s
        = .ok [] { s.update_from_preset i p with queue := q }) ∧
    (∀ (v : PyStr) (n : Int), pyInt? v = some n →
      parse env [("--preset".data), strInt i, ("--cores".data), v] s
        = .ok [] { s.update_from_preset i p with cores := n }) ∧
    (∀ (v : PyStr) (m : Int),
      UnitParser.parse_to_mb (some v)
          (some (s.update_from_preset i p).memory_mb) = some (some m) →
      m ≠ 0 →
      parse env [("--preset".data), strInt i, ("--memory".data), v] s
        = .ok [] { s.update_from_preset i p with memory_mb := m }) ∧
    (∀ w : PyStr, w.isEmpty = false →
      parse env [("--preset".data), strInt i, ("--walltime".data), w] s
        = .ok [] { s.update_from_preset i p with walltime := w }) ∧
    (∀ g : PyStr, g.isEmpty = false →
      parse env [("--preset".data), strInt i, ("--gaussian-version".data), g] s
        = .ok [] { s.update_from_preset i p with gaussian_version := some g }) ∧
    (∀ (v : PyStr) (md : Option Int),
      UnitParser.parse_to_mb (some v)
          (s.update_from_preset i p).maxdisk_mb = some md →
      parse env [("--preset".data), strInt i, ("--maxdisk".data), v] s
        = .ok [] { s.update_from_preset i p with maxdisk_mb := md }) := by
  have hshow : pyLower (strInt i) ≠ ("show".data) :=
    pyLower_strInt_ne (by decide)
  have hset : pyLower (strInt i) ≠ ("set".data) :=
    pyLower_strInt_ne (by decide)
  refine ⟨fun q hq => ?_, fun v n hv => ?_, fun v m hv hm => ?_,
    fun w hw => ?_, fun g hg => ?_, fun v md hv => ?_⟩ <;>
    · unfold parse
      simp [parseLoop, pyStartswith, List.isPrefixOf, pyPartition, withValue,
        take_value, apply_preset, eq_false hshow, eq_false hset,
        pyInt?_strInt, hp, *]

/-- C1 witness: preset 1 then `--memory 5GB` yields memory 5000. -/
theorem C1_witness :
    parse ⟨[("q;4;1000MB;w;;".data)], []⟩
        [("--preset".data), strInt 1, ("--memory".data), ("5GB".data)] {}
      = .ok [] { ({} : SubmitSettings).update_from_preset 1
          ⟨("q".data), 4, 1000, ("w".data), none, none⟩ with
            memory_mb := 5000 } :=
  (C1_override_after_preset ⟨[("q;4;1000MB;w;;".data)], []⟩ {} 1
      ⟨("q".data), 4, 1000, ("w".data), none, none⟩ (by decide)).2.2.1
    ("5GB".data) 5000 (by decide) (by decide)

/-- C9: with `dryRun` set and every file passing validation, the run exits
with status 0, the scheduler is never invoked, no log entry is appended
(the single log event stands for the append to both log files), and the
built command is printed for every file (via the quiet summary or the
interactive preview). -/
theorem C9_dry_run (script : PyStr) (files : List JobFile)
    (s : SubmitSettings) (hdr : s.dry_run = true)
    (hv : ∀ f ∈ files, f.valid = true) :
    (process_jobs script files s).1 = 0 ∧
    (∀ cmd, Event.schedulerCalled cmd ∉ (process_jobs script files s).2) ∧
    (∀ st, Event.logAppended st ∉ (process_jobs script files s).2) ∧
    (∀ f ∈ files,
      Event.commandPrinted (build_command script s (f.stem.take 15) f.stem)
        ∈ (process_jobs script files s).2) := by
  obtain ⟨a1, a2, a3, a4⟩ := processJobsAux_dry script s hdr files hv
  by_cases hf : files.isEmpty
  · have hnil : files = [] := by
      cases files with
      | nil => rfl
      | cons a t => simp at hf
    subst hnil
    simp [process_jobs]
  · have hf' : files.isEmpty = false := by
      cases hfe : files.isEmpty
      · rfl
      · exact absurd hfe hf
    unfold process_jobs
    rw [hf']
    simp only [Bool.false_eq_true, if_false]
    refine ⟨a1, ?_, ?_, ?_⟩
    · intro cmd hc
      rcases List.mem_cons.1 hc with hc | hc
      · exact Event.noConfusion hc
      · exact a2 cmd hc
    · intro st hc
      rcases List.mem_cons.1 hc with hc | hc
      · exact Event.noConfusion hc
      · exact a3 st hc
    · intro f hfm
      exact List.mem_cons_of_mem _ (a4 f hfm)

/-- C9 witness: one valid file under a dry run — exit code 0, the scheduler
call and log events are absent and the built command is printed. -/
theorem C9_witness :
    (process_jobs ("rng".data)
        [⟨("water".data), true, true, ⟨true, []⟩⟩]
        { dry_run := true }).1 = 0 ∧
    Event.schedulerCalled (build_command ("rng".data) { dry_run := true }
        (("water".data).take 15) ("water".data))
      ∉ (process_jobs ("rng".data)
        [⟨("water".data), true, true, ⟨true, []⟩⟩] { dry_run := true }).2 ∧
    Event.logAppended ("water".data)
      ∉ (process_jobs ("rng".data)
        [⟨("water".data), true, true, ⟨true, []⟩⟩] { dry_run := true }).2 ∧
    Event.commandPrinted (build_command ("rng".data) { dry_run := true }
        (("water".data).take 15) ("water".data))
      ∈ (process_jobs ("rng".data)
        [⟨("water".data), true, true, ⟨true, []⟩⟩] { dry_run := true }).2 :=
  ⟨(C9_dry_run ("rng".data) [⟨("water".data), true, true, ⟨true, []⟩⟩]
      { dry_run := true } rfl (by decide)).1,
   (C9_dry_run ("rng".data) [⟨("water".data), true, true, ⟨true, []⟩⟩]
      { dry_run := true } rfl (by decide)).2.1 _,
   (C9_dry_run ("rng".data) [⟨("water".data), true, true, ⟨true, []⟩⟩]
      { dry_run := true } rfl (by decide)).2.2.1 _,
   (C9_dry_run ("rng".data) [⟨("water".data), true, true, ⟨true, []⟩⟩]
      { dry_run := true } rfl (by decide)).2.2.2
     ⟨("water".data), true, true, ⟨true, []⟩⟩ (List.mem_cons_self _ _)⟩

end HPC
